import Mathlib

/-!
Verification of the stage-orchestration control plane of the tool-cards
repository (QuantumForge vNext).  Python source under `src/core/` is
shallowly embedded: dictionaries become association lists, JSON values an
inductive type, the stdlib `json.loads` a recursive-descent decoder, and the
retry loops explicit fuel recursions that also record how many times the
external call was invoked and how long the code slept between attempts.
-/

set_option maxRecDepth 10000

/-- Model of a decoded Python JSON value.  Numbers keep their source lexeme
(the distinction between int and float never matters for the properties
verified here); objects are insertion-ordered key/value lists with the
first-position/last-value update semantics of a Python `dict`. -/
inductive JsonV where
  | null : JsonV
  | bool (b : Bool) : JsonV
  | num (lexeme : String) : JsonV
  | str (s : String) : JsonV
  | arr (elems : List JsonV) : JsonV
  | obj (fields : List (String × JsonV)) : JsonV

/-- Opening-brace character, written numerically. -/
def lbrace : Char := Char.ofNat 123

/-- Closing-brace character, written numerically. -/
def rbrace : Char := Char.ofNat 125

/-- Opening brace as a one-character string. -/
def lbraceS : String := "\x7b"

/-- JSON whitespace per Python `json` (space, tab, newline, carriage return). -/
def isJsonWs (c : Char) : Bool :=
  c == ' ' || c == '\t' || c == '\n' || c == '\r'

/-- Drop leading JSON whitespace from a character list. -/
def skipWsJ : List Char → List Char
  | [] => []
  | c :: cs => if isJsonWs c then skipWsJ cs else c :: cs

/-- Value of a hexadecimal digit, if any. -/
def hexVal? (c : Char) : Option Nat :=
  if '0' ≤ c ∧ c ≤ '9' then some (c.toNat - 48)
  else if 'a' ≤ c ∧ c ≤ 'f' then some (c.toNat - 87)
  else if 'A' ≤ c ∧ c ≤ 'F' then some (c.toNat - 55)
  else none

/-- Insert a key/value pair with Python-`dict` semantics: an existing key keeps
its position and gets the new value, a new key is appended at the end. -/
def objInsert (fields : List (String × JsonV)) (k : String) (v : JsonV) :
    List (String × JsonV) :=
  if fields.any (fun kv => kv.1 == k) then
    fields.map (fun kv => if kv.1 == k then (kv.1, v) else kv)
  else fields ++ [(k, v)]

/-- Decode the body of a JSON string literal (the opening quote already
consumed), in the strict mode `json.loads` uses: raw control characters are
rejected, the escapes are the JSON ones, and `uXXXX` escapes combine
surrogate pairs. -/
def parseJStrAux : Nat → List Char → List Char → Option (String × List Char)
  | 0, _, _ => none
  | _, [], _ => none
  | fuel + 1, c :: cs, acc =>
    if c == '"' then some (String.mk acc.reverse, cs)
    else if c == '\\' then
      match cs with
      | [] => none
      | e :: cs2 =>
        if e == '"' then parseJStrAux fuel cs2 ('"' :: acc)
        else if e == '\\' then parseJStrAux fuel cs2 ('\\' :: acc)
        else if e == '/' then parseJStrAux fuel cs2 ('/' :: acc)
        else if e == 'b' then parseJStrAux fuel cs2 ('\x08' :: acc)
        else if e == 'f' then parseJStrAux fuel cs2 ('\x0c' :: acc)
        else if e == 'n' then parseJStrAux fuel cs2 ('\n' :: acc)
        else if e == 'r' then parseJStrAux fuel cs2 ('\x0d' :: acc)
        else if e == 't' then parseJStrAux fuel cs2 ('\t' :: acc)
        else if e == 'u' then
          match cs2 with
          | a :: b :: c3 :: d :: cs3 =>
            match hexVal? a, hexVal? b, hexVal? c3, hexVal? d with
            | some ha, some hb, some hc, some hd =>
              let n := ((ha * 16 + hb) * 16 + hc) * 16 + hd
              if 0xD800 ≤ n ∧ n < 0xDC00 then
                match cs3 with
                | s1 :: s2 :: a2 :: b2 :: c4 :: d2 :: cs4 =>
                  if s1 == '\\' && s2 == 'u' then
                    match hexVal? a2, hexVal? b2, hexVal? c4, hexVal? d2 with
                    | some ha2, some hb2, some hc2, some hd2 =>
                      let n2 := ((ha2 * 16 + hb2) * 16 + hc2) * 16 + hd2
                      if 0xDC00 ≤ n2 ∧ n2 < 0xE000 then
                        parseJStrAux fuel cs4
                          (Char.ofNat (0x10000 + (n - 0xD800) * 0x400 + (n2 - 0xDC00)) :: acc)
                      else parseJStrAux fuel cs3 (Char.ofNat n :: acc)
                    | _, _, _, _ => parseJStrAux fuel cs3 (Char.ofNat n :: acc)
                  else parseJStrAux fuel cs3 (Char.ofNat n :: acc)
                | _ => parseJStrAux fuel cs3 (Char.ofNat n :: acc)
              else parseJStrAux fuel cs3 (Char.ofNat n :: acc)
            | _, _, _, _ => none
          | _ => none
        else none
    else if c.toNat < 32 then none
    else parseJStrAux fuel cs (c :: acc)

/-- Decode a JSON number token (the regex `-?(0|[1-9][0-9]*)(\.[0-9]+)?([eE][+-]?[0-9]+)?`
used by Python's decoder), returning its lexeme. -/
def parseJNumber (cs : List Char) : Option (String × List Char) :=
  let (minus, cs1) :=
    match cs with
    | '-' :: rest => ([('-' : Char)], rest)
    | _ => ([], cs)
  match cs1 with
  | c :: rest =>
    if c == '0' then
      let intPart := [c]
      let cs2 := rest
      let (frac, cs3) :=
        match cs2 with
        | '.' :: r2 =>
          let (ds, r3) := r2.span Char.isDigit
          if ds.isEmpty then ([], cs2) else ('.' :: ds, r3)
        | _ => ([], cs2)
      let (ex, cs4) :=
        match cs3 with
        | e :: r2 =>
          if e == 'e' || e == 'E' then
            let (sgn, r3) :=
              match r2 with
              | s :: r4 => if s == '+' || s == '-' then ([s], r4) else ([], r2)
              | _ => ([], r2)
            let (ds, r5) := r3.span Char.isDigit
            if ds.isEmpty then ([], cs3) else (e :: (sgn ++ ds), r5)
          else ([], cs3)
        | _ => ([], cs3)
      some (String.mk (minus ++ intPart ++ frac ++ ex), cs4)
    else if c.isDigit then
      let (ds, cs2) := cs1.span Char.isDigit
      let (frac, cs3) :=
        match cs2 with
        | '.' :: r2 =>
          let (fds, r3) := r2.span Char.isDigit
          if fds.isEmpty then ([], cs2) else ('.' :: fds, r3)
        | _ => ([], cs2)
      let (ex, cs4) :=
        match cs3 with
        | e :: r2 =>
          if e == 'e' || e == 'E' then
            let (sgn, r3) :=
              match r2 with
              | s :: r4 => if s == '+' || s == '-' then ([s], r4) else ([], r2)
              | _ => ([], r2)
            let (eds, r5) := r3.span Char.isDigit
            if eds.isEmpty then ([], cs3) else (e :: (sgn ++ eds), r5)
          else ([], cs3)
        | _ => ([], cs3)
      some (String.mk (minus ++ ds ++ frac ++ ex), cs4)
    else none
  | [] => none

mutual

/-- Decode one JSON value starting at the given characters. -/
def parseJVal : Nat → List Char → Option (JsonV × List Char)
  | 0, _ => none
  | _, [] => none
  | fuel + 1, c :: cs =>
    if c == '"' then
      match parseJStrAux fuel cs [] with
      | some (s, rest) => some (JsonV.str s, rest)
      | none => none
    else if c == lbrace then
      match skipWsJ cs with
      | d :: rest =>
        if d == rbrace then some (JsonV.obj [], rest)
        else parseJMembers fuel (d :: rest) []
      | [] => none
    else if c == '[' then
      match skipWsJ cs with
      | d :: rest =>
        if d == ']' then some (JsonV.arr [], rest)
        else parseJElems fuel (d :: rest) []
      | [] => none
    else if c == 't' then
      if ("rue").toList.isPrefixOf cs then some (JsonV.bool true, cs.drop 3) else none
    else if c == 'f' then
      if ("alse").toList.isPrefixOf cs then some (JsonV.bool false, cs.drop 4) else none
    else if c == 'n' then
      if ("ull").toList.isPrefixOf cs then some (JsonV.null, cs.drop 3) else none
    else if c == 'N' then
      if ("aN").toList.isPrefixOf cs then some (JsonV.num ("NaN"), cs.drop 2) else none
    else if c == 'I' then
      if ("nfinity").toList.isPrefixOf cs then some (JsonV.num ("Infinity"), cs.drop 7)
      else none
    else if c == '-' && ("Infinity").toList.isPrefixOf cs then
      some (JsonV.num ("-Infinity"), cs.drop 8)
    else
      match parseJNumber (c :: cs) with
      | some (lex, rest) => some (JsonV.num lex, rest)
      | none => none

/-- Decode the members of a JSON object after the opening brace (next
non-whitespace character is expected to start a quoted key). -/
def parseJMembers : Nat → List Char → List (String × JsonV) →
    Option (JsonV × List Char)
  | 0, _, _ => none
  | fuel + 1, cs, acc =>
    match skipWsJ cs with
    | q :: cs1 =>
      if q == '"' then
        match parseJStrAux fuel cs1 [] with
        | some (k, cs2) =>
          match skipWsJ cs2 with
          | ':' :: cs3 =>
            match parseJVal fuel (skipWsJ cs3) with
            | some (v, cs4) =>
              let acc2 := objInsert acc k v
              match skipWsJ cs4 with
              | d :: cs5 =>
                if d == rbrace then some (JsonV.obj acc2, cs5)
                else if d == ',' then parseJMembers fuel cs5 acc2
                else none
              | [] => none
            | none => none
          | _ => none
        | none => none
      else none
    | [] => none

/-- Decode the elements of a JSON array after the opening bracket (next
non-whitespace character is expected to start a value). -/
def parseJElems : Nat → List Char → List JsonV → Option (JsonV × List Char)
  | 0, _, _ => none
  | fuel + 1, cs, acc =>
    match parseJVal fuel (skipWsJ cs) with
    | some (v, cs1) =>
      match skipWsJ cs1 with
      | d :: cs2 =>
        if d == ']' then some (JsonV.arr (acc ++ [v]), cs2)
        else if d == ',' then parseJElems fuel cs2 (acc ++ [v])
        else none
      | [] => none
    | none => none

end

/-- Model of Python's `json.loads`: decode one value, allow surrounding
whitespace, reject trailing data.  Returns `none` where the Python call would
raise `json.JSONDecodeError`. -/
def jsonLoads (s : String) : Option JsonV :=
  match parseJVal (s.length + 2) (skipWsJ s.toList) with
  | some (v, rest) => if skipWsJ rest == [] then some v else none
  | none => none

/-- Python `str.lower` (ASCII range; inputs here are ASCII). -/
def strToLower (s : String) : String := String.mk (s.toList.map Char.toLower)

/-- Python `str.startswith`. -/
def strStartsWith (s pre : String) : Bool := pre.toList.isPrefixOf s.toList

/-- The ASCII whitespace stripped by Python `str.strip()`. -/
def isPyWs (c : Char) : Bool :=
  c == ' ' || c == '\t' || c == '\n' || c == '\x0d' || c == '\x0b' || c == '\x0c'

/-- Python `str.strip()`. -/
def strTrim (s : String) : String :=
  String.mk (((s.toList.dropWhile isPyWs).reverse.dropWhile isPyWs).reverse)

/-- Worker for `strSplitOn` (fuel strictly exceeds the input length, so the
fuel-exhaustion branch is unreachable for a non-empty separator). -/
def splitOnAuxL (sep : List Char) : Nat → List Char → List Char → List (List Char)
  | _, [], acc => [acc.reverse]
  | 0, cs, acc => [acc.reverse ++ cs]
  | fuel + 1, c :: cs, acc =>
    if sep.isPrefixOf (c :: cs) then
      acc.reverse :: splitOnAuxL sep fuel ((c :: cs).drop sep.length) []
    else splitOnAuxL sep fuel cs (c :: acc)

/-- Python `str.split(sep)` for a non-empty separator. -/
def strSplitOn (s sep : String) : List String :=
  (splitOnAuxL sep.toList (s.toList.length + 1) s.toList []).map String.mk

/-- Worker for `strReplace` (same fuel convention; the separators used in the
source are non-empty). -/
def replaceAuxL (target repl : List Char) : Nat → List Char → List Char
  | _, [] => []
  | 0, cs => cs
  | fuel + 1, c :: cs =>
    if target.isPrefixOf (c :: cs) then
      repl ++ replaceAuxL target repl fuel ((c :: cs).drop target.length)
    else c :: replaceAuxL target repl fuel cs

/-- Python `str.replace` (all non-overlapping occurrences, left to right),
for a non-empty target. -/
def strReplace (s target repl : String) : String :=
  String.mk (replaceAuxL target.toList repl.toList (s.toList.length + 1) s.toList)

/-! ## StructuredResponseParser: `BaseAgent._parse_json_with_retry`
(src/core/base_agent.py lines 163-220). -/

/-- Markdown-fence stripping step of `_parse_json_with_retry`: when the
response starts with a fenced block marker the markers are removed and the
result trimmed (base_agent.py lines 183-184). -/
def markdownStrip (response : String) : String :=
  if strStartsWith response ("```json") then
    strTrim (strReplace (strReplace response ("```json") ("")) ("```") (""))
  else response

/-- Net open-minus-close brace count of one line
(`line.count('{') - line.count('}')`). -/
def braceDelta (line : String) : Int :=
  (line.toList.count lbrace : Int) - (line.toList.count rbrace : Int)

/-- Accumulation phase of the embedded-object scan: once a line whose trimmed
content starts with an opening brace has been seen, lines are collected while
the running brace balance is tracked; the scan stops as soon as the balance
returns to zero (base_agent.py lines 197-208). -/
def scanStarted (count : Int) (acc : List String) : List String → List String
  | [] => acc
  | l :: ls =>
    let c := count + braceDelta l
    if c == 0 then acc ++ [l] else scanStarted c (acc ++ [l]) ls

/-- Line scan of `_parse_json_with_retry`: skip lines until one whose trimmed
content starts with an opening brace, then accumulate lines until the brace
balance returns to zero (base_agent.py lines 192-208). -/
def extractJsonLines : List String → List String
  | [] => []
  | l :: ls =>
    if strStartsWith (strTrim l) lbraceS then scanStarted 0 [] (l :: ls)
    else extractJsonLines ls

/-- Embedding of `BaseAgent._parse_json_with_retry` (base_agent.py lines
163-220): reject empty input, strip a markdown fence, try a full decode, and
on failure fall back to the brace-balance line scan.  `Except.error` models
the `ValueError` the Python method raises. -/
def parseJsonWithRetry (response : String) (agentName : String) :
    Except String JsonV :=
  if response == ("") || strTrim response == ("") then
    .error (agentName ++ (" returned empty response"))
  else
    let response2 := markdownStrip response
    match jsonLoads response2 with
    | some data => .ok data
    | none =>
      match extractJsonLines (strSplitOn response2 ("\n")) with
      | [] => .error (agentName ++ (" response contains no valid JSON"))
      | l :: ls =>
        match jsonLoads (String.intercalate ("\n") (l :: ls)) with
        | some data => .ok data
        | none => .error (agentName ++ (" returned invalid JSON: decode error"))

/-! ## Common dictionary helpers -/

/-- Association lists standing in for Python dictionaries with JSON values. -/
abbrev PyDict := List (String × JsonV)

/-- Python `d.get(k)`: the value at the first matching key, if any. -/
def dictGet (d : PyDict) (k : String) : Option JsonV :=
  (d.find? (fun kv => kv.1 == k)).map (fun kv => kv.2)

/-- Python `d.get(k, "")` where the stored value is a string. -/
def dictGetStr (d : PyDict) (k : String) : String :=
  match dictGet d k with
  | some (.str s) => s
  | _ => ("")

/-- Python `d[k] = v` for a generic value type: an existing key keeps its
position and gets the new value, a new key is appended. -/
def dictInsert {β : Type} (d : List (String × β)) (k : String) (v : β) :
    List (String × β) :=
  if d.any (fun kv => kv.1 == k) then
    d.map (fun kv => if kv.1 == k then (kv.1, v) else kv)
  else d ++ [(k, v)]

/-- Python `needle in haystack` on strings (substring containment). -/
def substrB (needle hay : String) : Bool :=
  hay.toList.tails.any (fun t => needle.toList.isPrefixOf t)

/-- Python `repr` of a list of strings, as interpolated into error messages. -/
def pyListRepr (xs : List String) : String :=
  ("[") ++ String.intercalate (", ") (xs.map (fun s => ("\x27") ++ s ++ ("\x27"))) ++ ("]")

/-! ## RetryController: `BaseAgent._call_with_retry`
(src/core/base_agent.py lines 66-89). -/

/-- Result of one full stage call: either a normal Python return (possibly
`None`, from the fall-through when the loop body never runs) or a raised
exception with its message. -/
inductive RetryResult where
  | returned (v : Option JsonV)
  | raised (msg : String)

/-- Trace of `_call_with_retry`: its outcome, how many times the external
call (`_call_openai`) ran, and the sleeps (ms) taken between attempts. -/
structure RetryTrace where
  result : RetryResult
  produceCalls : Nat
  sleepsMs : List Nat

/-- One loop iteration's produce-then-recover outcome: the external call is an
oracle `produce` (its exceptions are `.error`), and a produced raw text is fed
to `_parse_json_with_retry`. -/
def attemptOutcome (produce : Nat → Except String String) (agentName : String)
    (i : Nat) : Except String JsonV :=
  match produce i with
  | .error e => .error e
  | .ok raw => parseJsonWithRetry raw agentName

/-- The `for attempt in range(self.max_retries)` loop of `_call_with_retry`,
with `fuel` the number of remaining iterations.  On the last failed attempt it
raises `RuntimeError` carrying the agent name, the attempt budget, and the
last error; otherwise it sleeps 500 ms and continues. -/
def callWithRetryLoop (maxRetries : Int) (produce : Nat → Except String String)
    (agentName : String) : Nat → Nat → RetryTrace
  | _, 0 => ⟨.returned none, 0, []⟩
  | attempt, fuel + 1 =>
    match attemptOutcome produce agentName attempt with
    | .ok v => ⟨.returned (some v), 1, []⟩
    | .error e =>
      if (attempt : Int) == maxRetries - 1 then
        ⟨.raised (agentName ++ (" failed after ") ++ toString maxRetries ++ (" retries: ") ++ e),
          1, []⟩
      else
        let rest := callWithRetryLoop maxRetries produce agentName (attempt + 1) fuel
        ⟨rest.result, rest.produceCalls + 1, 500 :: rest.sleepsMs⟩

/-- Embedding of `BaseAgent._call_with_retry`: `range(max_retries)` runs
`max(max_retries, 0)` iterations; an empty range falls through and returns
`None`. -/
def callWithRetry (maxRetries : Int) (produce : Nat → Except String String)
    (agentName : String) : RetryTrace :=
  callWithRetryLoop maxRetries produce agentName 0 maxRetries.toNat

/-! ## Stage validators
(`DiscoveryAgent._validate_component_cards`, discovery_agent.py lines 112-126,
and `ParamProcessorAgent._validate_param_map`, param_processor_agent.py lines
142-172). -/

/-- Python `field in data` for a JSON value: key membership for dicts, element
equality for lists, substring for strings, `TypeError` otherwise. -/
def pyContains (data : JsonV) (field : String) : Except String Bool :=
  match data with
  | .obj fs => .ok (fs.any (fun kv => kv.1 == field))
  | .arr xs => .ok (xs.any (fun x => match x with | .str s => s == field | _ => false))
  | .str s => .ok (substrB field s)
  | _ => .error ("TypeError: argument is not iterable")

/-- The `for field in required_fields: if field not in data` loop: the first
missing field, or a `TypeError` if membership is not defined on `data`. -/
def firstMissingField (data : JsonV) : List String → Except String (Option String)
  | [] => .ok none
  | f :: fs =>
    match pyContains data f with
    | .error e => .error e
    | .ok true => firstMissingField data fs
    | .ok false => .ok (some f)

/-- Spec-level result of `_validate_param_map`
(`{"valid": bool, "missing": [...]}`). -/
structure ValidRes where
  valid : Bool
  missing : List String
deriving DecidableEq

/-- Whether a parameter spec supplies a default
(`isinstance(param_spec, dict) and param_spec.get("default") is not None`). -/
def specHasDefault (spec : JsonV) : Bool :=
  match spec with
  | .obj sf =>
    match dictGet sf ("default") with
    | some .null => false
    | some _ => true
    | none => false
  | _ => false

/-- The parameter-completeness loop of `_validate_param_map`: collect, in
schema order, every schema parameter that is neither present in
`normalized_params` nor covered by a schema default. -/
def missingParamsLoop (normalizedParams : JsonV) : PyDict → Except String (List String)
  | [] => .ok []
  | (pname, pspec) :: rest =>
    match pyContains normalizedParams pname with
    | .error e => .error e
    | .ok b =>
      match missingParamsLoop normalizedParams rest with
      | .error e => .error e
      | .ok tail =>
        if !b && !specHasDefault pspec then .ok (pname :: tail) else .ok tail

/-- Embedding of `ParamProcessorAgent._validate_param_map` (lines 142-172).
Python `None` is modelled by `JsonV.null`; membership tests on it raise. -/
def validateParamMap (data : JsonV) (requiredSchema : PyDict) :
    Except String ValidRes :=
  match firstMissingField data
      [("normalized_params"), ("aliases"), ("defaults"), ("validation_errors")] with
  | .error e => .error e
  | .ok (some f) => .ok ⟨false, [("Missing field: ") ++ f]⟩
  | .ok none =>
    match data with
    | .obj fs =>
      let normalizedParams := (dictGet fs ("normalized_params")).getD (.obj [])
      match missingParamsLoop normalizedParams requiredSchema with
      | .error e => .error e
      | .ok missing => .ok ⟨missing.isEmpty, missing⟩
    | _ => .error ("AttributeError: no attribute get")

/-- Embedding of `DiscoveryAgent._validate_component_cards` (lines 112-126). -/
def validateComponentCards (data : JsonV) : Bool :=
  match data with
  | .arr cards =>
    cards.all (fun c =>
      match c with
      | .obj fs =>
        ([("name"), ("kind"), ("tags"), ("needs"), ("provides"),
          ("params_schema"), ("yields"), ("codegen_hint")] : List String).all
          (fun f => fs.any (fun kv => kv.1 == f))
      | _ => false)
  | _ => false

/-- The `required_schema.update(component["params_schema"])` fold of
`ParamProcessorAgent.process`/`process_async` (lines 57-61 and 105-109):
later components override earlier keys; a non-dict schema raises. -/
def requiredSchemaOf (components : List PyDict) : Except String PyDict :=
  components.foldlM (fun acc comp =>
    match dictGet comp ("params_schema") with
    | none => .ok acc
    | some (.obj ps) => .ok (ps.foldl (fun a kv => objInsert a kv.1 kv.2) acc)
    | some _ => .error ("TypeError: update expects a mapping")) []

/-! ## Stage entry points (sync and async)
(`ParamProcessorAgent.process` lines 44-90, `.process_async` lines 92-140;
`DiscoveryAgent.process` lines 36-72, `.process_async` lines 74-110). -/

/-- Trace of one synchronous stage call: its outcome and the number of
external-model invocations it triggered. -/
structure StageTrace where
  result : Except String JsonV
  produceCalls : Nat

/-- Embedding of `ParamProcessorAgent.process`: one `_call_with_retry`, then a
single semantic validation of the returned record outside the retry loop;
every exception is wrapped in `RuntimeError("ParamProcessorAgent处理失败: ...")`. -/
def paramProcessSync (maxRetries : Int) (produce : Nat → Except String String)
    (components : List PyDict) : StageTrace :=
  match requiredSchemaOf components with
  | .error e => ⟨.error e, 0⟩
  | .ok schema =>
    let t := callWithRetry maxRetries produce ("ParamProcessorAgent")
    match t.result with
    | .raised m => ⟨.error (("ParamProcessorAgent处理失败: ") ++ m), t.produceCalls⟩
    | .returned vopt =>
      let data := vopt.getD JsonV.null
      match validateParamMap data schema with
      | .error e => ⟨.error (("ParamProcessorAgent处理失败: ") ++ e), t.produceCalls⟩
      | .ok vr =>
        if vr.valid then ⟨.ok data, t.produceCalls⟩
        else
          ⟨.error (("ParamProcessorAgent处理失败: ") ++ ("参数处理验证失败: 缺失参数 ")
            ++ pyListRepr vr.missing), t.produceCalls⟩

/-- Trace of one asynchronous stage call. -/
structure AsyncTrace where
  result : RetryResult
  produceCalls : Nat

/-- The retry loop of `ParamProcessorAgent.process_async` (lines 125-140): the
semantic validation runs inside the `try`, so a validation failure is caught
by the generic handler and retried like any other attempt failure. -/
def paramProcessAsyncLoop (maxRetries : Int) (produce : Nat → Except String String)
    (schema : PyDict) : Nat → Nat → AsyncTrace
  | _, 0 => ⟨.returned none, 0⟩
  | attempt, fuel + 1 =>
    let step : Except String JsonV :=
      match attemptOutcome produce ("ParamProcessorAgent") attempt with
      | .ok r =>
        match validateParamMap r schema with
        | .ok vr =>
          if vr.valid then .ok r
          else .error (("ParamMap验证失败: 缺失参数 ") ++ pyListRepr vr.missing)
        | .error e => .error e
      | .error e => .error e
    match step with
    | .ok r => ⟨.returned (some r), 1⟩
    | .error e =>
      if (attempt : Int) == maxRetries - 1 then
        ⟨.raised (("ParamProcessorAgent异步调用失败，已重试") ++ toString maxRetries
          ++ ("次: ") ++ e), 1⟩
      else
        let rest := paramProcessAsyncLoop maxRetries produce schema (attempt + 1) fuel
        ⟨rest.result, rest.produceCalls + 1⟩

/-- Embedding of `ParamProcessorAgent.process_async` (lines 92-140). -/
def paramProcessAsync (maxRetries : Int) (produce : Nat → Except String String)
    (components : List PyDict) : AsyncTrace :=
  match requiredSchemaOf components with
  | .error e => ⟨.raised e, 0⟩
  | .ok schema => paramProcessAsyncLoop maxRetries produce schema 0 maxRetries.toNat

/-- The retry loop of `DiscoveryAgent.process_async` (lines 96-110): the
`_validate_component_cards` check also sits inside the `try`, so its
`ValueError` is retried. -/
def discoveryProcessAsyncLoop (maxRetries : Int)
    (produce : Nat → Except String String) : Nat → Nat → AsyncTrace
  | _, 0 => ⟨.returned none, 0⟩
  | attempt, fuel + 1 =>
    let step : Except String JsonV :=
      match attemptOutcome produce ("DiscoveryAgent") attempt with
      | .ok r =>
        if validateComponentCards r then .ok r
        else .error ("ComponentCards格式验证失败")
      | .error e => .error e
    match step with
    | .ok r => ⟨.returned (some r), 1⟩
    | .error e =>
      if (attempt : Int) == maxRetries - 1 then
        ⟨.raised (("DiscoveryAgent异步调用失败，已重试") ++ toString maxRetries
          ++ ("次: ") ++ e), 1⟩
      else
        let rest := discoveryProcessAsyncLoop maxRetries produce (attempt + 1) fuel
        ⟨rest.result, rest.produceCalls + 1⟩

/-- Embedding of `DiscoveryAgent.process_async` (lines 74-110). -/
def discoveryProcessAsync (maxRetries : Int)
    (produce : Nat → Except String String) : AsyncTrace :=
  discoveryProcessAsyncLoop maxRetries produce 0 maxRetries.toNat

/-- Embedding of `DiscoveryAgent.process` (lines 36-72): one
`_call_with_retry`, then a single format validation outside the retry loop. -/
def discoveryProcessSync (maxRetries : Int)
    (produce : Nat → Except String String) : StageTrace :=
  let t := callWithRetry maxRetries produce ("DiscoveryAgent")
  match t.result with
  | .raised m => ⟨.error (("DiscoveryAgent处理失败: ") ++ m), t.produceCalls⟩
  | .returned vopt =>
    let data := vopt.getD JsonV.null
    if validateComponentCards data then ⟨.ok data, t.produceCalls⟩
    else ⟨.error (("DiscoveryAgent处理失败: ") ++ ("ComponentCards格式验证失败")),
      t.produceCalls⟩

/-! ## RelevanceFilter: `DiscoveryAgent._filter_relevant_components`
(src/core/discovery_agent.py lines 128-181). -/

/-- The fields of a catalog entry that the relevance filter reads, plus the
remaining fields (`extra`), which only participate in the whole-record
equality used by the `component not in filtered_components` check. -/
structure CompR where
  name : String
  kind : String
  tags : List String
  extra : List (String × String)
deriving DecidableEq

/-- The domain/algorithm fields of a task card
(`task_card.get("domain", "")`, `task_card.get("algorithm", "")`). -/
structure TaskCardR where
  domain : String
  algorithm : String

/-- The multi-criterion relevance score of lines 150-168, scaled by 10 so the
weights 0.4/0.3/0.2/0.1 and the 0.2 cutoff become the integers 4/3/2/1 and 2
(no reachable float-rounding effect: each bonus occurs at most once and the
only boundary sum is the exact 0.2 kind bonus). `domain` and `algorithm` are
already lower-cased by the caller. -/
def relevanceScore (domain algorithm : String) (c : CompR) : Nat :=
  let tags := c.tags.map strToLower
  let kind := strToLower c.kind
  let name := strToLower c.name
  let tagsJoined := String.intercalate (" ") tags
  let s1 :=
    if (strSplitOn domain (".")).any (fun kw => substrB kw name || substrB kw tagsJoined)
    then 4 else 0
  let s2 := if substrB algorithm name || substrB algorithm tagsJoined then 3 else 0
  let s3 :=
    if kind == ("hamiltonian") || kind == ("ansatz") || kind == ("optimizer")
       || kind == ("algorithm") then 2 else 0
  let s4 :=
    if kind == ("core") || kind == ("backend") || tags.contains ("core") then 1 else 0
  s1 + s2 + s3 + s4

/-- The raw (not lower-cased) kind test of the force-include loop
(`component.get("kind") in ["core", "backend", "algorithm"]`, line 177). -/
def kindQualifies (c : CompR) : Bool :=
  c.kind == ("core") || c.kind == ("backend") || c.kind == ("algorithm")

/-- The force-include loop of lines 176-179: walk the registry and append
every kind-qualified entry not already present (whole-record equality). -/
def forceInclude (registry acc : List CompR) : List CompR :=
  registry.foldl (fun a c => if kindQualifies c ∧ c ∉ a then a ++ [c] else a) acc

/-- Embedding of `DiscoveryAgent._filter_relevant_components` (lines 128-181):
keep entries scoring at least the cutoff; if fewer than 3 survive, run the
force-include pass over the whole registry. -/
def filterRelevantComponents (taskCard : TaskCardR) (registry : List CompR) :
    List CompR :=
  let domain := strToLower taskCard.domain
  let algorithm := strToLower taskCard.algorithm
  let filtered := registry.filter (fun c => 2 ≤ relevanceScore domain algorithm c)
  if filtered.length < 3 then forceInclude registry filtered else filtered

/-! ## SchemaCompressor
(`ParamProcessorAgent._compress_schema`, param_processor_agent.py lines
196-217, and `DiscoveryAgent._compress_schema_for_llm`, discovery_agent.py
lines 183-214). -/

/-- The keys kept by schema compression. -/
def keepKeys : List String := [("type"), ("default"), ("range"), ("options")]

/-- Compression of one parameter spec: a mapping keeps only `keepKeys`, any
scalar passes through unchanged. -/
def compressSpec (spec : JsonV) : JsonV :=
  match spec with
  | .obj sf => .obj (sf.filter (fun kv => keepKeys.contains kv.1))
  | s => s

/-- Embedding of `ParamProcessorAgent._compress_schema` (lines 196-217). -/
def compressSchema (schema : PyDict) : PyDict :=
  schema.map (fun kv => (kv.1, compressSpec kv.2))

/-- One component of `DiscoveryAgent._compress_schema_for_llm` (lines
195-212): copy the component, and if it has a `params_schema` mapping replace
it in place by its compression; a non-mapping `params_schema` raises when the
code iterates `.items()` on it. -/
def compressComponentForLLM (comp : PyDict) : Except String PyDict :=
  match dictGet comp ("params_schema") with
  | none => .ok comp
  | some (.obj ps) =>
    .ok (comp.map (fun kv =>
      if kv.1 == ("params_schema") then (kv.1, JsonV.obj (compressSchema ps)) else kv))
  | some _ => .error ("AttributeError: no attribute items")

/-- Embedding of `DiscoveryAgent._compress_schema_for_llm` (lines 183-214). -/
def compressSchemaForLLM (components : List PyDict) : Except String (List PyDict) :=
  components.mapM compressComponentForLLM

/-! ## DependencyBinder: `CodegenAgent._analyze_component_dependencies`
(src/core/codegen_agent.py lines 451-516). -/

/-- Component roles inferred from name keywords. -/
inductive Role where
  | hamiltonian
  | optimizer
  | circuit
  | backend
  | algorithm
deriving DecidableEq

/-- The name-keyword classification chain of lines 467-478 (first match wins;
a component matching no keyword stays unclassified). -/
def classifyComponent (name : String) : Option Role :=
  if substrB ("Hamiltonian") name then some .hamiltonian
  else if substrB ("Optimizer") name then some .optimizer
  else if substrB ("Circuit") name || substrB ("Ansatz") name then some .circuit
  else if substrB ("Backend") name || substrB ("Estimator") name then some .backend
  else if substrB ("Algorithm") name then some .algorithm
  else none

/-- The `component_types` dictionary of lines 464-478, built by iterating the
component list in order (name taken from `component.get("name", "")`). -/
def compTypesFold (components : List PyDict) : List (String × Role) :=
  components.foldl (fun acc comp =>
    let name := dictGetStr comp ("name")
    match classifyComponent name with
    | some r => dictInsert acc name r
    | none => acc) []

/-- Lookup in the `component_types` dictionary. -/
def typeLookup (types : List (String × Role)) (n : String) : Option Role :=
  (types.find? (fun kv => kv.1 == n)).map (fun kv => kv.2)

/-- String form of a role, as stored in the `type` field of a dependency. -/
def roleStr : Role → String
  | .hamiltonian => ("hamiltonian")
  | .optimizer => ("optimizer")
  | .circuit => ("circuit")
  | .backend => ("backend")
  | .algorithm => ("algorithm")

/-- Embedding of `CodegenAgent._get_variable_name` (lines 507-516): the fixed
role → variable table; the `component_name.lower()` fallback is unreachable
because every classified component has one of the five roles. -/
def getVariableName (componentType : Role) : String :=
  match componentType with
  | .hamiltonian => ("H")
  | .optimizer => ("optimizer")
  | .circuit => ("ansatz")
  | .backend => ("estimator")
  | .algorithm => ("algorithm")

/-- One entry of an algorithm component's dependency list
(`{"name": ..., "type": ..., "variable": ...}`). -/
structure DepEntry where
  name : String
  role : Role
  var : String
deriving DecidableEq

/-- The dependency-collection loop of lines 486-493: walk `execution_order`
and keep every classified component other than the algorithm itself. -/
def algoDeps (types : List (String × Role)) (executionOrder : List String)
    (algoName : String) : List DepEntry :=
  executionOrder.foldl (fun acc compName =>
    if compName ≠ algoName then
      match typeLookup types compName with
      | some t => acc ++ [⟨compName, t, getVariableName t⟩]
      | none => acc
    else acc) []

/-- The `usage_pattern` string of line 498. -/
def usagePatternOf (algoName : String) (deps : List DepEntry) : String :=
  ("algorithm = ") ++ ((strSplitOn algoName (".")).getLastD (""))
    ++ ("(")
    ++ String.intercalate (", ") (deps.map (fun d => roleStr d.role ++ ("=") ++ d.var))
    ++ (")")

/-- The per-algorithm value of the `dependencies` dictionary (lines 495-499);
its constant `"type": "algorithm"` field is implicit. -/
structure BindInfo where
  requiresList : List DepEntry
  usagePattern : String
deriving DecidableEq

/-- Result of `_analyze_component_dependencies` (lines 501-505). -/
structure DepAnalysis where
  componentTypes : List (String × Role)
  algorithmDependencies : List (String × BindInfo)
  executionOrder : List String

/-- Embedding of `CodegenAgent._analyze_component_dependencies` (lines
451-516).  `executionOrder` is the list the source reads off
`pipeline_plan.get("execution_order", [])`. -/
def analyzeComponentDependencies (components : List PyDict)
    (executionOrder : List String) : DepAnalysis :=
  let types := compTypesFold components
  let algoComponents := (types.filter (fun kv => kv.2 == Role.algorithm)).map (fun kv => kv.1)
  let deps := algoComponents.map (fun a =>
    let ds := algoDeps types executionOrder a
    (a, BindInfo.mk ds (usagePatternOf a ds)))
  ⟨types, deps, executionOrder⟩

/-! ## LearningStore: `AgentMemory`
(src/core/agent_memory.py lines 23-41, 43-65, 208-243). -/

/-- The per-category lists of `AgentMemory.__init__`. -/
structure AgentMemSt where
  paramPatterns : List PyDict
  paramCompletions : List PyDict
  paramNormalizations : List PyDict
  componentCombinations : List PyDict
  successfulDiscoveries : List PyDict
  generationPatterns : List PyDict
  successfulGenerations : List PyDict
  validationFailures : List PyDict
  missingParamCases : List PyDict

/-- A fresh `AgentMemory`. -/
def initAgentMemory : AgentMemSt := ⟨[], [], [], [], [], [], [], [], []⟩

/-- Embedding of `AgentMemory.record_success_case` (lines 43-65): build the
case record and append it to the category selected by `agent_type`; note that
no capacity check occurs on this path.  The wall-clock timestamp is passed in
as `ts`. -/
def recordSuccessCase (st : AgentMemSt) (agentType ts : String)
    (inputData outputData : JsonV) : AgentMemSt :=
  let caseRec : PyDict :=
    [(("agent_type"), JsonV.str agentType), (("timestamp"), JsonV.str ts),
     (("input"), inputData), (("output"), outputData)]
  if agentType == ("DiscoveryAgent") then
    { st with successfulDiscoveries := st.successfulDiscoveries ++ [caseRec] }
  else if agentType == ("ParamNormAgent") then
    { st with paramNormalizations := st.paramNormalizations ++ [caseRec] }
  else if agentType == ("CodegenAgent") then
    { st with successfulGenerations := st.successfulGenerations ++ [caseRec] }
  else st

/-- Embedding of `AgentMemory._extract_query_type` (lines 296-306). -/
def extractQueryType (query : String) : String :=
  let q := strToLower query
  if substrB ("ising") q || substrB ("spin") q then ("SPIN_MODEL")
  else if substrB ("molecular") q || substrB ("molecule") q then ("molecular")
  else if substrB ("heisenberg") q then ("heisenberg")
  else ("general")

/-- The completion record built by `record_param_processing` (lines 220-227). -/
def mkCompletionRecord (query ts : String) (components : List PyDict)
    (originalParams processedResult : PyDict) : PyDict :=
  [(("query"), .str query),
   (("query_type"), .str (extractQueryType query)),
   (("component_types"), .arr (components.map (fun c => JsonV.str (dictGetStr c ("kind"))))),
   (("original_params"), .obj originalParams),
   (("completed_params"), (dictGet processedResult ("normalized_params")).getD (.obj [])),
   (("timestamp"), .str ts)]

/-- The normalization record built by `record_param_processing` (lines 229-234). -/
def mkNormalizationRecord (query ts : String) (components : List PyDict)
    (originalParams processedResult : PyDict) : PyDict :=
  [(("task_info"), .obj [(("params"), .obj originalParams), (("query"), .str query)]),
   (("component_types"), .arr (components.map (fun c => JsonV.str (dictGetStr c ("kind"))))),
   (("param_map"), .obj processedResult),
   (("timestamp"), .str ts)]

/-- Append followed by the `if len(...) > 50: pop(0)` size cap of lines
239-243. -/
def boundedAppend (l : List PyDict) (x : PyDict) : List PyDict :=
  let l2 := l ++ [x]
  if 50 < l2.length then l2.drop 1 else l2

/-- Embedding of `AgentMemory.record_param_processing` (lines 208-243): both
derived records are appended to their categories, each capped at 50 by
evicting the oldest entry. -/
def recordParamProcessing (st : AgentMemSt) (query ts : String)
    (components : List PyDict) (originalParams processedResult : PyDict) :
    AgentMemSt :=
  { st with
    paramCompletions :=
      boundedAppend st.paramCompletions
        (mkCompletionRecord query ts components originalParams processedResult),
    paramNormalizations :=
      boundedAppend st.paramNormalizations
        (mkNormalizationRecord query ts components originalParams processedResult) }

/-! ## PipelineOrchestrator, parallel entry point:
`QuantumOrchestrator.generate_quantum_code_parallel`
(src/core/quantum_orchestrator.py lines 172-231). -/

/-- One Python statement of the function body, by the local names it assigns
and the variable names it reads (in evaluation order). -/
structure PyStmt where
  targets : List String
  reads : List String

/-- The statements of `generate_quantum_code_parallel` after the `try:`
(lines 187-227), transcribed with their assignment targets and variable
reads.  Attribute accesses read their base variable; `asyncio` is a module
global, not a local. -/
def parallelBodyStmts : List PyStmt :=
  [⟨[], [("query")]⟩,
   ⟨[("task_card")], [("self"), ("query")]⟩,
   ⟨[], [("task_card")]⟩,
   ⟨[("discovery_task")], [("self"), ("task_card"), ("registry_data")]⟩,
   ⟨[("param_map_task")], [("self"), ("query"), ("task_card"), ("components")]⟩,
   ⟨[("components"), ("initial_param_map")],
     [("asyncio"), ("discovery_task"), ("param_norm_task")]⟩,
   ⟨[], [("components")]⟩,
   ⟨[], [("initial_param_map")]⟩,
   ⟨[], [("components")]⟩,
   ⟨[("param_map")], [("param_map_task")]⟩,
   ⟨[], [("param_map")]⟩,
   ⟨[("pipeline_plan")], [("self"), ("task_card"), ("components"), ("param_map")]⟩,
   ⟨[], [("pipeline_plan")]⟩,
   ⟨[("code_cells")],
     [("self"), ("pipeline_plan"), ("components"), ("param_map"),
      ("helper_sources"), ("component_imports")]⟩,
   ⟨[], [("code_cells")]⟩,
   ⟨[], [("code_cells")]⟩]

/-- The parameters of `generate_quantum_code_parallel`, bound on entry. -/
def parallelBodyParams : List String :=
  [("self"), ("query"), ("registry_data"), ("helper_sources"), ("component_imports")]

/-- All assignment targets of a statement list (the function's local names,
per Python scoping). -/
def allTargets (stmts : List PyStmt) : List String :=
  stmts.foldl (fun a s => a ++ s.targets) []

/-- Walk the statements in order with the set of bound names; the first read
of a local (an assignment target somewhere in the body) that is not yet bound
raises `UnboundLocalError` there. -/
def unboundScan (locals : List String) (bound : List String) :
    List PyStmt → Option String
  | [] => none
  | s :: rest =>
    match s.reads.find? (fun r => !(bound.contains r) && locals.contains r) with
    | some r => some r
    | none => unboundScan locals (bound ++ s.targets) rest

/-- The first unbound-local read of a function body started from its
parameters. -/
def firstUnboundLocalRead (params : List String) (stmts : List PyStmt) :
    Option String :=
  unboundScan (allTargets stmts) params stmts

/-- Embedding of `QuantumOrchestrator.generate_quantum_code_parallel` at the
name-resolution level: the semantic-parsing step (line 191) is an oracle; the
rest of the body executes statements whose reads must be bound, and any
exception is wrapped by the handler of lines 229-231 into
`RuntimeError("QuantumOrchestrator并行处理失败: ...")`. -/
def generateQuantumCodeParallel (semanticOutcome : Except String JsonV) :
    Except String JsonV :=
  match semanticOutcome with
  | .error e => .error (("QuantumOrchestrator并行处理失败: ") ++ e)
  | .ok _ =>
    match firstUnboundLocalRead parallelBodyParams parallelBodyStmts with
    | some n =>
      .error (("QuantumOrchestrator并行处理失败: ") ++ ("UnboundLocalError: ") ++ n)
    | none => .ok JsonV.null

/-! ## Helper lemmas for the retry loop -/

theorem callWithRetryLoop_calls_le (mr : Int) (p : Nat → Except String String)
    (a : String) : ∀ (fuel attempt : Nat),
    (callWithRetryLoop mr p a attempt fuel).produceCalls ≤ fuel := by
  intro fuel
  induction fuel with
  | zero => intro attempt; simp [callWithRetryLoop]
  | succ n ih =>
    intro attempt
    simp only [callWithRetryLoop]
    cases h : attemptOutcome p a attempt with
    | ok v => simp
    | error e =>
      by_cases hc : ((attempt : Int) == mr - 1) = true
      · simp [hc]
      · simp only [Bool.not_eq_true] at hc
        simp only [hc, Bool.false_eq_true, if_false]
        have := ih (attempt + 1)
        omega

theorem callWithRetryLoop_success (mr : Int) (p : Nat → Except String String)
    (a : String) (v : JsonV) :
    ∀ (k attempt fuel : Nat), fuel + attempt = mr.toNat →
      attempt + k < mr.toNat →
      (∀ j, j < k → ∃ e, attemptOutcome p a (attempt + j) = .error e) →
      attemptOutcome p a (attempt + k) = .ok v →
      callWithRetryLoop mr p a attempt fuel =
        ⟨.returned (some v), k + 1, List.replicate k 500⟩ := by
  intro k
  induction k with
  | zero =>
    intro attempt fuel hf hlt hj hk
    obtain ⟨f, rfl⟩ : ∃ f, fuel = f + 1 := ⟨fuel - 1, by omega⟩
    rw [Nat.add_zero] at hk
    simp [callWithRetryLoop, hk]
  | succ k ih =>
    intro attempt fuel hf hlt hj hsucc
    obtain ⟨f, rfl⟩ : ∃ f, fuel = f + 1 := ⟨fuel - 1, by omega⟩
    obtain ⟨e, he⟩ := hj 0 (by omega)
    rw [Nat.add_zero] at he
    have hne : ((attempt : Int) == mr - 1) = false := by
      simp only [beq_eq_false_iff_ne, ne_eq]
      intro hcontra
      omega
    simp only [callWithRetryLoop, he, hne, Bool.false_eq_true, if_false]
    have hrec := ih (attempt + 1) f (by omega) (by omega)
      (fun j hj2 => by
        have h3 := hj (j + 1) (by omega)
        rwa [show attempt + (j + 1) = attempt + 1 + j by omega] at h3)
      (by rwa [show attempt + (k + 1) = attempt + 1 + k by omega] at hsucc)
    rw [hrec]
    simp [List.replicate_succ]

theorem callWithRetryLoop_exhaust (mr : Int) (p : Nat → Except String String)
    (a : String) (lastErr : String) :
    ∀ (k attempt fuel : Nat), fuel + attempt = mr.toNat →
      attempt + k + 1 = mr.toNat →
      (∀ j, j < k → ∃ e, attemptOutcome p a (attempt + j) = .error e) →
      attemptOutcome p a (attempt + k) = .error lastErr →
      callWithRetryLoop mr p a attempt fuel =
        ⟨.raised (a ++ (" failed after ") ++ toString mr ++ (" retries: ") ++ lastErr),
          k + 1, List.replicate k 500⟩ := by
  intro k
  induction k with
  | zero =>
    intro attempt fuel hf hlast hj hk
    obtain ⟨f, rfl⟩ : ∃ f, fuel = f + 1 := ⟨fuel - 1, by omega⟩
    rw [Nat.add_zero] at hk
    have heq : ((attempt : Int) == mr - 1) = true := by
      simp only [beq_iff_eq]
      omega
    simp [callWithRetryLoop, hk, heq]
  | succ k ih =>
    intro attempt fuel hf hlast hj hsucc
    obtain ⟨f, rfl⟩ : ∃ f, fuel = f + 1 := ⟨fuel - 1, by omega⟩
    obtain ⟨e, he⟩ := hj 0 (by omega)
    rw [Nat.add_zero] at he
    have hne : ((attempt : Int) == mr - 1) = false := by
      simp only [beq_eq_false_iff_ne, ne_eq]
      intro hcontra
      omega
    simp only [callWithRetryLoop, he, hne, Bool.false_eq_true, if_false]
    have hrec := ih (attempt + 1) f (by omega) (by omega)
      (fun j hj2 => by
        have h3 := hj (j + 1) (by omega)
        rwa [show attempt + (j + 1) = attempt + 1 + j by omega] at h3)
      (by rwa [show attempt + (k + 1) = attempt + 1 + k by omega] at hsucc)
    rw [hrec]
    simp [List.replicate_succ]

/-- Claim C3: `_call_with_retry` invokes the external call at most
`max_retries` times; if the Nth attempt (N ≤ max_retries) is the first on
which both the call and the parse succeed it returns that Nth recovered
record, having slept a fixed 500 ms between consecutive attempts; and if all
`max_retries` attempts raise, it raises a `RuntimeError` naming the agent and
carrying the last error, again with fixed 500 ms pauses and no exponential
backoff. -/
theorem retry_attempt_bound_and_result (mr : Int)
    (produce : Nat → Except String String) (agentName : String) (N : Nat)
    (v : JsonV) (lastErr : String) :
    ((callWithRetry mr produce agentName).produceCalls ≤ mr.toNat)
    ∧ (1 ≤ N → (N : Int) ≤ mr →
        (∀ j, j < N - 1 → ∃ e, attemptOutcome produce agentName j = .error e) →
        attemptOutcome produce agentName (N - 1) = .ok v →
        callWithRetry mr produce agentName =
          ⟨.returned (some v), N, List.replicate (N - 1) 500⟩)
    ∧ (1 ≤ mr →
        (∀ j, j < mr.toNat - 1 → ∃ e, attemptOutcome produce agentName j = .error e) →
        attemptOutcome produce agentName (mr.toNat - 1) = .error lastErr →
        callWithRetry mr produce agentName =
          ⟨.raised (agentName ++ (" failed after ") ++ toString mr ++ (" retries: ")
              ++ lastErr),
            mr.toNat, List.replicate (mr.toNat - 1) 500⟩) := by
  refine ⟨callWithRetryLoop_calls_le mr produce agentName mr.toNat 0, ?_, ?_⟩
  · intro hN hNmr hj hsucc
    have h := callWithRetryLoop_success mr produce agentName v (N - 1) 0 mr.toNat
      (by omega) (by omega)
      (fun j hj2 => by simpa using hj j hj2)
      (by simpa using hsucc)
    rw [callWithRetry, h]
    congr 1
    omega
  · intro hmr hj hlast
    have h := callWithRetryLoop_exhaust mr produce agentName lastErr (mr.toNat - 1) 0
      mr.toNat (by omega) (by omega)
      (fun j hj2 => by simpa using hj j hj2)
      (by simpa using hlast)
    rw [callWithRetry, h]
    congr 1
    omega

/-- Concrete external-call oracle for the C3 witness: the first attempt
raises, the second returns an empty JSON object. -/
def produceC3 : Nat → Except String String :=
  fun i => if i < 1 then .error ("boom") else .ok ("\x7b\x7d")

/-- Witness for C3 at `max_retries = 3` and first success on attempt 2. -/
theorem retry_attempt_bound_and_result_witness :
    callWithRetry 3 produceC3 ("TestAgent") =
      ⟨.returned (some (JsonV.obj [])), 2, List.replicate 1 500⟩ :=
  (retry_attempt_bound_and_result 3 produceC3 ("TestAgent") 2 (JsonV.obj [])
      ("unused")).2.1
    (by decide) (by decide)
    (fun j hj => by interval_cases j; exact ⟨("boom"), rfl⟩)
    (by rfl)

/-- Claim C10: with a non-positive `max_retries` the loop of
`_call_with_retry` never runs, so the method falls through and returns `None`
without invoking the external call and without raising. -/
theorem retry_nonpositive_budget_returns_none (mr : Int)
    (produce : Nat → Except String String) (agentName : String)
    (h : mr ≤ 0) :
    callWithRetry mr produce agentName = ⟨.returned none, 0, []⟩ := by
  have h0 : mr.toNat = 0 := by omega
  rw [callWithRetry, h0]
  rfl

/-- Concrete oracle for the C10 witness (never reached). -/
def produceC10 : Nat → Except String String := fun _ => .ok ("\x7b\x7d")

/-- Witness for C10 at `max_retries = -2`. -/
theorem retry_nonpositive_budget_returns_none_witness :
    callWithRetry (-2) produceC10 ("SemanticAgent") = ⟨.returned none, 0, []⟩ :=
  retry_nonpositive_budget_returns_none (-2) produceC10 ("SemanticAgent") (by decide)

/-- Claim C9: the parallel pipeline entry point reads the local
`components` (line 197) before its only assignment (line 199) and the name
`param_norm_task` (line 200) which is never assigned, so after the
semantic-parsing step the body always raises and no discovery/parameter
fan-out ever completes through this path. -/
theorem parallel_entry_always_raises :
    (firstUnboundLocalRead parallelBodyParams parallelBodyStmts = some ("components"))
    ∧ ((allTargets parallelBodyStmts).contains ("param_norm_task") = false)
    ∧ (parallelBodyStmts.any (fun s => s.reads.contains ("param_norm_task")) = true)
    ∧ (∀ semanticOutcome : Except String JsonV,
        ∃ e, generateQuantumCodeParallel semanticOutcome = .error e) := by
  refine ⟨by rfl, by rfl, by rfl, ?_⟩
  intro so
  cases so with
  | error e => exact ⟨_, rfl⟩
  | ok v => exact ⟨_, rfl⟩

/-! ## Idempotence of schema compression (C8) -/

theorem compressSpec_idem (v : JsonV) :
    compressSpec (compressSpec v) = compressSpec v := by
  cases v with
  | obj fields =>
    simp only [compressSpec, List.filter_filter]
    exact congrArg JsonV.obj (List.filter_congr (fun a _ => Bool.and_self _))
  | null => rfl
  | bool b => rfl
  | num l => rfl
  | str s => rfl
  | arr es => rfl

theorem compressSchema_idem (schema : PyDict) :
    compressSchema (compressSchema schema) = compressSchema schema := by
  simp only [compressSchema, List.map_map]
  congr 1
  funext kv
  simp [compressSpec_idem]

theorem dictGet_map_update (l : PyDict) (k : String) (v' : JsonV) :
    (∃ x, l.find? (fun kv => kv.1 == k) = some x) →
    dictGet (l.map (fun kv => if kv.1 == k then (kv.1, v') else kv)) k = some v' := by
  induction l with
  | nil => rintro ⟨x, hx⟩; simp [List.find?] at hx
  | cons hd tl ih =>
    rintro ⟨x, hx⟩
    by_cases h : (hd.1 == k) = true
    · simp [dictGet, List.find?, h]
    · simp only [Bool.not_eq_true] at h
      have hx' : tl.find? (fun kv => kv.1 == k) = some x := by
        simpa [List.find?, h] using hx
      have := ih ⟨x, hx'⟩
      simp only [dictGet] at this ⊢
      simpa [List.find?, h] using this

theorem compressComponentForLLM_idem (c c' : PyDict)
    (h : compressComponentForLLM c = .ok c') :
    compressComponentForLLM c' = .ok c' := by
  unfold compressComponentForLLM at h ⊢
  cases hg : dictGet c ("params_schema") with
  | none =>
    rw [hg] at h
    have h2 : (Except.ok c : Except String PyDict) = .ok c' := h
    injection h2 with h3
    subst h3
    rw [hg]
  | some v =>
    rw [hg] at h
    cases v with
    | obj ps =>
      have h2 : (Except.ok (c.map (fun kv =>
          if kv.1 == ("params_schema") then (kv.1, JsonV.obj (compressSchema ps)) else kv)) :
          Except String PyDict) = .ok c' := h
      injection h2 with h3
      have hfind : ∃ x, c.find? (fun kv => kv.1 == ("params_schema")) = some x := by
        cases hf : c.find? (fun kv => kv.1 == ("params_schema")) with
        | none => rw [dictGet, hf] at hg; exact Option.noConfusion hg
        | some x => exact ⟨x, rfl⟩
      have hget := dictGet_map_update c ("params_schema")
        (JsonV.obj (compressSchema ps)) hfind
      rw [← h3, hget]
      show Except.ok ((c.map (fun kv =>
          if kv.1 == ("params_schema") then (kv.1, JsonV.obj (compressSchema ps)) else kv)).map
            (fun kv => if kv.1 == ("params_schema")
              then (kv.1, JsonV.obj (compressSchema (compressSchema ps))) else kv)) =
        Except.ok (c.map (fun kv =>
          if kv.1 == ("params_schema") then (kv.1, JsonV.obj (compressSchema ps)) else kv))
      rw [compressSchema_idem, List.map_map]
      congr 1
      apply List.map_congr_left
      intro kv _
      by_cases hk : kv.1 = ("params_schema")
      · simp [hk]
      · simp [hk]
    | null => exact Except.noConfusion h
    | bool b => exact Except.noConfusion h
    | num lx => exact Except.noConfusion h
    | str s => exact Except.noConfusion h
    | arr es => exact Except.noConfusion h

theorem mapM_compress_idem :
    ∀ (cs l : List PyDict), cs.mapM compressComponentForLLM = .ok l →
      l.mapM compressComponentForLLM = .ok l := by
  intro cs
  induction cs with
  | nil =>
    intro l h
    have h2 : (Except.ok ([] : List PyDict) : Except String (List PyDict)) = .ok l := h
    injection h2 with h3
    subst h3
    rfl
  | cons c cs ih =>
    intro l h
    rw [List.mapM_cons] at h
    cases hc : compressComponentForLLM c with
    | error e => rw [hc] at h; exact Except.noConfusion h
    | ok b =>
      rw [hc] at h
      cases hcs : cs.mapM compressComponentForLLM with
      | error e =>
        rw [hcs] at h
        exact Except.noConfusion h
      | ok bs =>
        rw [hcs] at h
        have h2 : (Except.ok (b :: bs) : Except String (List PyDict)) = .ok l := h
        injection h2 with h3
        subst h3
        rw [List.mapM_cons, compressComponentForLLM_idem c b hc, ih bs hcs]
        rfl

/-- Claim C8: both schema compressors are idempotent — the parameter
processor's `_compress_schema` on schemas, and the discovery agent's
`_compress_schema_for_llm` on component lists (where a second application is
sequenced through the error monad, since a non-mapping `params_schema`
raises). -/
theorem schemaCompressor_idempotent :
    (∀ schema : PyDict,
      compressSchema (compressSchema schema) = compressSchema schema)
    ∧ (∀ components : List PyDict,
      (compressSchemaForLLM components).bind compressSchemaForLLM =
        compressSchemaForLLM components) := by
  refine ⟨compressSchema_idem, ?_⟩
  intro components
  cases h : compressSchemaForLLM components with
  | error e => rfl
  | ok l =>
    have := mapM_compress_idem components l h
    simp only [Except.bind]
    exact this

/-! ## DependencyBinder analysis (C1) -/

theorem typeLookup_dictInsert (d : List (String × Role)) (n : String) (r : Role)
    (cn : String) :
    typeLookup (dictInsert d n r) cn = if cn = n then some r else typeLookup d cn := by
  unfold dictInsert typeLookup
  by_cases hex : (d.any (fun kv => kv.1 == n)) = true
  · rw [if_pos hex, List.find?_map]
    have hpred : ((fun kv : String × Role => kv.1 == cn)
        ∘ (fun kv => if kv.1 == n then (kv.1, r) else kv))
        = (fun kv : String × Role => kv.1 == cn) := by
      funext kv
      by_cases h : kv.1 = n <;> simp [h]
    rw [hpred]
    by_cases hcn : cn = n
    · subst hcn
      rw [if_pos rfl]
      obtain ⟨kv, hmem, hkv⟩ := List.any_eq_true.mp hex
      cases hfind : List.find? (fun kv => kv.1 == cn) d with
      | none =>
        exact absurd hkv (List.find?_eq_none.mp hfind kv hmem)
      | some kv0 =>
        have hkey : kv0.1 = cn := by simpa using List.find?_some hfind
        simp [hkey]
    · rw [if_neg hcn]
      cases hfind : List.find? (fun kv => kv.1 == cn) d with
      | none => simp
      | some kv0 =>
        have hkey : kv0.1 = cn := by simpa using List.find?_some hfind
        have hne : ¬(kv0.1 = n) := by
          rw [hkey]
          exact hcn
        simp [hne]
  · rw [if_neg hex, List.find?_append]
    by_cases hcn : cn = n
    · subst hcn
      have hnone : List.find? (fun kv : String × Role => kv.1 == cn) d = none := by
        rw [List.find?_eq_none]
        intro kv hmem hkv
        exact hex (List.any_eq_true.mpr ⟨kv, hmem, hkv⟩)
      rw [hnone, if_pos rfl]
      simp [List.find?]
    · cases hfind : List.find? (fun kv : String × Role => kv.1 == cn) d with
      | none =>
        have hb : (n == cn) = false := by
          simp only [beq_eq_false_iff_ne, ne_eq]
          exact fun h => hcn h.symm
        simp [List.find?, hb, hcn]
      | some kv0 =>
        simp [hcn]

theorem typeLookup_fold_aux (cn : String) :
    ∀ (comps : List PyDict) (acc : List (String × Role)),
    typeLookup (comps.foldl (fun acc2 comp =>
      match classifyComponent (dictGetStr comp ("name")) with
      | some r => dictInsert acc2 (dictGetStr comp ("name")) r
      | none => acc2) acc) cn =
    if (comps.any (fun c => dictGetStr c ("name") == cn))
        ∧ (classifyComponent cn).isSome
    then classifyComponent cn
    else typeLookup acc cn := by
  intro comps
  induction comps with
  | nil =>
    intro acc
    simp
  | cons c cs ih =>
    intro acc
    simp only [List.foldl_cons, List.any_cons]
    by_cases hn : dictGetStr c ("name") = cn
    · simp only [hn]
      cases hcl : classifyComponent cn with
      | none =>
        simp only [hcl]
        rw [ih acc]
        simp [hcl]
      | some r =>
        simp only [hcl]
        rw [ih (dictInsert acc cn r)]
        by_cases hcs : (cs.any (fun c2 => dictGetStr c2 ("name") == cn)) = true
        · simp [hcs, hcl]
        · rw [typeLookup_dictInsert]
          simp [hcs, hcl]
    · have hb : (dictGetStr c ("name") == cn) = false := by
        simp only [beq_eq_false_iff_ne, ne_eq]
        exact hn
      cases hcl2 : classifyComponent (dictGetStr c ("name")) with
      | none =>
        simp only [hcl2]
        rw [ih acc]
        simp [hb]
      | some r =>
        simp only [hcl2]
        rw [ih (dictInsert acc (dictGetStr c ("name")) r), typeLookup_dictInsert]
        have hinner : ¬(cn = dictGetStr c ("name")) := fun h => hn h.symm
        rw [if_neg hinner]
        simp [hb]

theorem typeLookup_compTypesFold (comps : List PyDict) (cn : String) :
    typeLookup (compTypesFold comps) cn =
      if comps.any (fun c => dictGetStr c ("name") == cn) then classifyComponent cn
      else none := by
  unfold compTypesFold
  rw [typeLookup_fold_aux]
  by_cases hany : (comps.any (fun c => dictGetStr c ("name") == cn)) = true
  · cases hcl : classifyComponent cn with
    | none => simp [hany, hcl, typeLookup, List.find?]
    | some r => simp [hany, hcl]
  · simp [hany, typeLookup, List.find?]

theorem algoDeps_foldl_filterMap (types : List (String × Role)) (a : String) :
    ∀ (order : List String) (acc : List DepEntry),
      order.foldl (fun acc2 compName =>
        if compName ≠ a then
          match typeLookup types compName with
          | some t => acc2 ++ [⟨compName, t, getVariableName t⟩]
          | none => acc2
        else acc2) acc =
      acc ++ order.filterMap (fun cn =>
        if cn ≠ a then
          (typeLookup types cn).map (fun t => ⟨cn, t, getVariableName t⟩)
        else none) := by
  intro order
  induction order with
  | nil => intro acc; simp
  | cons cn rest ih =>
    intro acc
    simp only [List.foldl_cons, List.filterMap_cons]
    by_cases hne : cn ≠ a
    · cases ht : typeLookup types cn with
      | some t =>
        simp only [if_pos hne, ht]
        rw [ih]
        simp
      | none =>
        simp only [if_pos hne, ht]
        rw [ih]
        rfl
    · simp only [if_neg hne]
      rw [ih]

/-- Binding of one algorithm component as the frozen claim C1 words it: the
classified non-algorithm components that appear strictly before it in
`execution_order`, in that order, with the canonical variable names. -/
def specBindingC1 (components : List PyDict) (executionOrder : List String)
    (algoName : String) : List DepEntry :=
  (executionOrder.takeWhile (fun cn => cn ≠ algoName)).filterMap (fun cn =>
    if components.any (fun c => dictGetStr c ("name") == cn) then
      match classifyComponent cn with
      | some Role.algorithm => none
      | some r => some ⟨cn, r, getVariableName r⟩
      | none => none
    else none)

/-- Binding of one algorithm component as the code actually computes it: every
classified component other than the algorithm itself, wherever it appears in
`execution_order` (before or after, other algorithms included). -/
def amendedBindingC1 (components : List PyDict) (executionOrder : List String)
    (algoName : String) : List DepEntry :=
  executionOrder.filterMap (fun cn =>
    if cn ≠ algoName ∧ components.any (fun c => dictGetStr c ("name") == cn) then
      (classifyComponent cn).map (fun r => ⟨cn, r, getVariableName r⟩)
    else none)

theorem algoDeps_eq_amended (comps : List PyDict) (order : List String) (a : String) :
    algoDeps (compTypesFold comps) order a = amendedBindingC1 comps order a := by
  unfold algoDeps amendedBindingC1
  rw [algoDeps_foldl_filterMap]
  rw [List.nil_append]
  apply congrArg (fun f => List.filterMap f order)
  funext cn
  by_cases hne : cn ≠ a
  · by_cases hany : (comps.any (fun c => dictGetStr c ("name") == cn)) = true
    · simp [hne, hany, typeLookup_compTypesFold]
    · simp [hne, hany, typeLookup_compTypesFold]
  · simp [hne]

theorem getVariableName_inj : Function.Injective getVariableName := by
  intro a b h
  cases a <;> cases b <;> simp_all [getVariableName]

theorem amendedBinding_length (comps : List PyDict) (a : String) :
    ∀ (l : List String), (∀ cn ∈ l, cn ≠ a) →
      (∀ cn ∈ l, comps.any (fun c => dictGetStr c ("name") == cn) = true) →
      (∀ cn ∈ l, (classifyComponent cn).isSome = true) →
      (amendedBindingC1 comps l a).length = l.length := by
  intro l
  induction l with
  | nil => intro _ _ _; rfl
  | cons cn rest ih =>
    intro h1 h2 h3
    have hne := h1 cn (List.mem_cons_self cn rest)
    have hany := h2 cn (List.mem_cons_self cn rest)
    have hsome := h3 cn (List.mem_cons_self cn rest)
    obtain ⟨r, hr⟩ := Option.isSome_iff_exists.mp hsome
    simp only [amendedBindingC1, List.filterMap_cons, if_pos (And.intro hne hany), hr]
    simp only [Option.map, List.length_cons]
    have := ih (fun c hc => h1 c (List.mem_cons_of_mem cn hc))
      (fun c hc => h2 c (List.mem_cons_of_mem cn hc))
      (fun c hc => h3 c (List.mem_cons_of_mem cn hc))
    simp only [amendedBindingC1, Option.map] at this
    rw [this]

theorem amendedBinding_vars (comps : List PyDict) (a : String) :
    ∀ (l : List String), (∀ cn ∈ l, cn ≠ a) →
      (∀ cn ∈ l, comps.any (fun c => dictGetStr c ("name") == cn) = true) →
      (amendedBindingC1 comps l a).map (fun d => d.var) =
        (l.filterMap (fun cn => classifyComponent cn)).map getVariableName := by
  intro l
  induction l with
  | nil => intro _ _; rfl
  | cons cn rest ih =>
    intro h1 h2
    have hne := h1 cn (List.mem_cons_self cn rest)
    have hany := h2 cn (List.mem_cons_self cn rest)
    have htail := ih (fun c hc => h1 c (List.mem_cons_of_mem cn hc))
      (fun c hc => h2 c (List.mem_cons_of_mem cn hc))
    simp only [amendedBindingC1, List.filterMap_cons, if_pos (And.intro hne hany)]
    cases hr : classifyComponent cn with
    | none =>
      simpa [amendedBindingC1] using htail
    | some r =>
      simp only [Option.map, List.map_cons]
      simp only [amendedBindingC1, Option.map] at htail
      rw [htail]

/-- Claim C1 (amended): for every component classified as algorithm, the
binding computed by `_analyze_component_dependencies` is exactly the
classified components other than itself wherever they appear in
`execution_order` (before or after, other algorithms included), in order,
each with the canonical variable name of its role; for a plan with one
algorithm component at the end of `execution_order` and k preceding
classified components, the binding has exactly k entries, and the canonical
variable names are distinct whenever the preceding roles are pairwise
distinct. -/
theorem dependencyBinder_binding (comps : List PyDict) (order : List String)
    (a : String) (info : BindInfo) (pre : List String) :
    ((a, info) ∈ (analyzeComponentDependencies comps order).algorithmDependencies →
      info.requiresList = amendedBindingC1 comps order a)
    ∧ (order = pre ++ [a] →
       (∀ cn ∈ pre, cn ≠ a) →
       (∀ cn ∈ pre, comps.any (fun c => dictGetStr c ("name") == cn) = true) →
       (∀ cn ∈ pre, (classifyComponent cn).isSome = true) →
       (pre.filterMap (fun cn => classifyComponent cn)).Nodup →
       ((amendedBindingC1 comps order a).length = pre.length
        ∧ ((amendedBindingC1 comps order a).map (fun d => d.var)).Nodup)) := by
  constructor
  · intro hmem
    simp only [analyzeComponentDependencies, List.mem_map] at hmem
    obtain ⟨a2, _, heq⟩ := hmem
    have ha : a2 = a := congrArg Prod.fst heq
    subst ha
    have hinfo : info = BindInfo.mk (algoDeps (compTypesFold comps) order a2)
        (usagePatternOf a2 (algoDeps (compTypesFold comps) order a2)) :=
      (congrArg Prod.snd heq).symm
    rw [hinfo]
    exact algoDeps_eq_amended comps order a2
  · intro horder h1 h2 h3 hnodup
    subst horder
    have hsplit : amendedBindingC1 comps (pre ++ [a]) a =
        amendedBindingC1 comps pre a := by
      unfold amendedBindingC1
      rw [List.filterMap_append]
      simp
    rw [hsplit]
    refine ⟨amendedBinding_length comps a pre h1 h2 h3, ?_⟩
    rw [amendedBinding_vars comps a pre h1 h2]
    exact hnodup.map getVariableName_inj

/-- Components of the C1 counterexample. -/
def cexC1Comps : List PyDict :=
  [[(("name"), JsonV.str ("TestAlgorithm"))], [(("name"), JsonV.str ("TestHamiltonian"))]]

/-- Execution order of the C1 counterexample: the algorithm comes first. -/
def cexC1Order : List String := [("TestAlgorithm"), ("TestHamiltonian")]

/-- Counterexample to claim C1 as stated: with the algorithm first in
`execution_order`, nothing precedes it, so the claim predicts an empty
binding; the code nevertheless binds the hamiltonian that appears after it. -/
theorem dependencyBinder_counterexample :
    (typeLookup (compTypesFold cexC1Comps) ("TestAlgorithm") = some Role.algorithm)
    ∧ ((analyzeComponentDependencies cexC1Comps cexC1Order).algorithmDependencies.map
        (fun kv => (kv.1, kv.2.requiresList)))
        = [(("TestAlgorithm"),
            [DepEntry.mk ("TestHamiltonian") Role.hamiltonian ("H")])]
    ∧ specBindingC1 cexC1Comps cexC1Order ("TestAlgorithm") = []
    ∧ [DepEntry.mk ("TestHamiltonian") Role.hamiltonian ("H")] ≠ ([] : List DepEntry) := by
  refine ⟨rfl, rfl, rfl, ?_⟩
  intro h
  exact List.noConfusion h

/-- Components for the C1 witness. -/
def witCompsC1 : List PyDict :=
  [[(("name"), JsonV.str ("TheHamiltonian"))],
   [(("name"), JsonV.str ("TheOptimizer"))],
   [(("name"), JsonV.str ("TheAlgorithm"))]]

/-- Execution order for the C1 witness. -/
def witOrderC1 : List String :=
  [("TheHamiltonian"), ("TheOptimizer"), ("TheAlgorithm")]

/-- Binding info the code computes for the C1 witness input. -/
def witInfoC1 : BindInfo :=
  ⟨[DepEntry.mk ("TheHamiltonian") Role.hamiltonian ("H"),
    DepEntry.mk ("TheOptimizer") Role.optimizer ("optimizer")],
   ("algorithm = TheAlgorithm(hamiltonian=H, optimizer=optimizer)")⟩

/-- Witness for the amended C1 at a three-component plan with the algorithm
last: the binding has exactly the two preceding entries and distinct
variable names. -/
theorem dependencyBinder_binding_witness :
    (witInfoC1.requiresList = amendedBindingC1 witCompsC1 witOrderC1 ("TheAlgorithm"))
    ∧ ((amendedBindingC1 witCompsC1 witOrderC1 ("TheAlgorithm")).length = 2
       ∧ ((amendedBindingC1 witCompsC1 witOrderC1 ("TheAlgorithm")).map
            (fun d => d.var)).Nodup) := by
  constructor
  · exact (dependencyBinder_binding witCompsC1 witOrderC1 ("TheAlgorithm") witInfoC1
      [("TheHamiltonian"), ("TheOptimizer")]).1 (by decide)
  · exact (dependencyBinder_binding witCompsC1 witOrderC1 ("TheAlgorithm") witInfoC1
      [("TheHamiltonian"), ("TheOptimizer")]).2 rfl (by decide) (by decide) (by decide)
      (by decide)

/-! ## RelevanceFilter floor (C5) -/

theorem forceInclude_sub : ∀ (registry acc : List CompR), acc ⊆ forceInclude registry acc := by
  intro registry
  induction registry with
  | nil => intro acc; exact fun x h => h
  | cons d ds ih =>
    intro acc
    simp only [forceInclude, List.foldl_cons]
    intro x hx
    have hstep : x ∈ (if kindQualifies d ∧ d ∉ acc then acc ++ [d] else acc) := by
      by_cases hcond : kindQualifies d ∧ d ∉ acc
      · rw [if_pos hcond]; exact List.mem_append_left _ hx
      · rw [if_neg hcond]; exact hx
    have := ih (if kindQualifies d ∧ d ∉ acc then acc ++ [d] else acc) hstep
    simpa [forceInclude] using this

theorem forceInclude_mem (c : CompR) (hq : kindQualifies c = true) :
    ∀ (registry acc : List CompR), c ∈ registry → c ∈ forceInclude registry acc := by
  intro registry
  induction registry with
  | nil => intro acc h; cases h
  | cons d ds ih =>
    intro acc hmem
    simp only [forceInclude, List.foldl_cons]
    rcases List.mem_cons.mp hmem with heq | htl
    · subst heq
      have hstep : c ∈ (if kindQualifies c ∧ c ∉ acc then acc ++ [c] else acc) := by
        by_cases hin : c ∈ acc
        · rw [if_neg (fun hcond => hcond.2 hin)]; exact hin
        · rw [if_pos (And.intro hq hin)]
          exact List.mem_append_right _ (List.mem_singleton.mpr rfl)
      have := forceInclude_sub ds
        (if kindQualifies c ∧ c ∉ acc then acc ++ [c] else acc) hstep
      simpa [forceInclude] using this
    · have := ih (if kindQualifies d ∧ d ∉ acc then acc ++ [d] else acc) htl
      simpa [forceInclude] using this

/-- Claim C5 (amended): if the catalog holds at least 3 pairwise-distinct
entries of kind core/backend/algorithm, the filter returns at least 3
entries; and whenever fewer than 3 entries survive the score cutoff, every
kind-qualified catalog entry not already present is force-included into the
result. -/
theorem relevanceFilter_floor (task : TaskCardR) (registry : List CompR) :
    (3 ≤ ((registry.filter (fun c => kindQualifies c)).dedup).length →
      3 ≤ (filterRelevantComponents task registry).length)
    ∧ (∀ c ∈ registry, kindQualifies c = true →
        (registry.filter (fun c2 =>
          2 ≤ relevanceScore (strToLower task.domain) (strToLower task.algorithm) c2)).length < 3 →
        c ∈ filterRelevantComponents task registry) := by
  constructor
  · intro hded
    unfold filterRelevantComponents
    by_cases hlt : (registry.filter (fun c =>
        2 ≤ relevanceScore (strToLower task.domain) (strToLower task.algorithm) c)).length < 3
    · rw [if_pos hlt]
      set result := forceInclude registry (registry.filter (fun c =>
        2 ≤ relevanceScore (strToLower task.domain) (strToLower task.algorithm) c)) with hres
      have hsub : ((registry.filter (fun c => kindQualifies c)).dedup) ⊆ result := by
        intro x hx
        have hx2 := List.mem_dedup.mp hx
        have hxreg := List.mem_of_mem_filter hx2
        have hxq : kindQualifies x = true := List.of_mem_filter hx2
        exact forceInclude_mem x hxq registry _ hxreg
      have h1 : ((registry.filter (fun c => kindQualifies c)).dedup).length =
          ((registry.filter (fun c => kindQualifies c)).dedup).toFinset.card :=
        (List.toFinset_card_of_nodup (List.nodup_dedup _)).symm
      have h2 : ((registry.filter (fun c => kindQualifies c)).dedup).toFinset ⊆
          result.toFinset := by
        intro x hx
        rw [List.mem_toFinset] at hx ⊢
        exact hsub hx
      calc 3 ≤ ((registry.filter (fun c => kindQualifies c)).dedup).length := hded
        _ = _ := h1
        _ ≤ result.toFinset.card := Finset.card_le_card h2
        _ ≤ result.length := result.toFinset_card_le
    · rw [if_neg hlt]
      omega
  · intro c hcreg hq hlt
    unfold filterRelevantComponents
    rw [if_pos hlt]
    exact forceInclude_mem c hq registry _ hcreg

/-- A core-kind catalog entry that scores below the relevance cutoff. -/
def cexC5Comp : CompR := ⟨("thing"), ("core"), [], []⟩

/-- Counterexample to claim C5 as stated: a catalog of three (identical)
core-kind entries, all scoring below the cutoff; the whole-record membership
test deduplicates them, so the filter returns a single entry, not 3. -/
theorem relevanceFilter_counterexample :
    (([cexC5Comp, cexC5Comp, cexC5Comp].filter (fun c => kindQualifies c)).length = 3)
    ∧ ((filterRelevantComponents ⟨("x"), ("y")⟩
        [cexC5Comp, cexC5Comp, cexC5Comp]).length = 1) := ⟨rfl, rfl⟩

/-- Task card for the C5 witness. -/
def witTaskC5 : TaskCardR := ⟨("x"), ("y")⟩

/-- Registry for the C5 witness: three distinct entries of the three
structurally necessary kinds. -/
def witRegC5 : List CompR :=
  [⟨("a"), ("core"), [], []⟩, ⟨("b"), ("backend"), [], []⟩,
   ⟨("c"), ("algorithm"), [], []⟩]

/-- Witness for the amended C5: the floor holds on a 3-entry registry, and a
below-cutoff core entry is force-included. -/
theorem relevanceFilter_floor_witness :
    (3 ≤ (filterRelevantComponents witTaskC5 witRegC5).length)
    ∧ (⟨("a"), ("core"), [], []⟩ : CompR) ∈ filterRelevantComponents witTaskC5 witRegC5 := by
  constructor
  · exact (relevanceFilter_floor witTaskC5 witRegC5).1 (by decide)
  · exact (relevanceFilter_floor witTaskC5 witRegC5).2 ⟨("a"), ("core"), [], []⟩
      (by decide) (by decide) (by decide)

/-! ## LearningStore bounds (C6) -/

/-- One input of `record_param_processing`. -/
structure PPRec where
  query : String
  ts : String
  components : List PyDict
  originalParams : PyDict
  processedResult : PyDict

/-- Apply `record_param_processing` for one input. -/
def applyPP (st : AgentMemSt) (x : PPRec) : AgentMemSt :=
  recordParamProcessing st x.query x.ts x.components x.originalParams x.processedResult

/-- The completion record an input produces. -/
def crecOf (x : PPRec) : PyDict :=
  mkCompletionRecord x.query x.ts x.components x.originalParams x.processedResult

/-- The normalization record an input produces. -/
def nrecOf (x : PPRec) : PyDict :=
  mkNormalizationRecord x.query x.ts x.components x.originalParams x.processedResult

theorem foldPP_completions : ∀ (xs : List PPRec) (st : AgentMemSt),
    (xs.foldl applyPP st).paramCompletions =
      xs.foldl (fun l x => boundedAppend l (crecOf x)) st.paramCompletions := by
  intro xs
  induction xs with
  | nil => intro st; rfl
  | cons x rest ih =>
    intro st
    simp only [List.foldl_cons]
    rw [ih]
    rfl

theorem foldPP_normalizations : ∀ (xs : List PPRec) (st : AgentMemSt),
    (xs.foldl applyPP st).paramNormalizations =
      xs.foldl (fun l x => boundedAppend l (nrecOf x)) st.paramNormalizations := by
  intro xs
  induction xs with
  | nil => intro st; rfl
  | cons x rest ih =>
    intro st
    simp only [List.foldl_cons]
    rw [ih]
    rfl

theorem boundedAppend_foldl_drop : ∀ (ys l : List PyDict), l.length ≤ 50 →
    ys.foldl boundedAppend l = (l ++ ys).drop (l.length + ys.length - 50) := by
  intro ys
  induction ys with
  | nil =>
    intro l hl
    simp only [List.foldl_nil, List.append_nil, List.length_nil]
    rw [show l.length + 0 - 50 = 0 by omega]
    rfl
  | cons y ys ih =>
    intro l hl
    simp only [List.foldl_cons]
    by_cases hfull : l.length = 50
    · have hba : boundedAppend l y = (l ++ [y]).drop 1 := by
        unfold boundedAppend
        rw [if_pos (by simp [hfull])]
      rw [hba]
      have hlen : ((l ++ [y]).drop 1).length = 50 := by simp [hfull]
      rw [ih _ (le_of_eq hlen), hlen]
      have hassoc : ((l ++ [y]).drop 1) ++ ys = ((l ++ [y]) ++ ys).drop 1 :=
        (List.drop_append_of_le_length (by simp)).symm
      rw [hassoc, List.drop_drop]
      rw [show (l ++ [y]) ++ ys = l ++ y :: ys by simp]
      congr 1
      simp only [List.length_cons]
      omega
    · have hba : boundedAppend l y = l ++ [y] := by
        unfold boundedAppend
        rw [if_neg (by simp; omega)]
      rw [hba, ih (l ++ [y]) (by simp [List.length_append]; omega)]
      rw [show (l ++ [y]) ++ ys = l ++ y :: ys by simp]
      congr 1
      simp only [List.length_append, List.length_cons, List.length_singleton,
        List.length_nil]
      omega

/-- Claim C6 (amended): the combined record operation
`record_param_processing` keeps `param_completions` and
`param_normalizations` as capacity-50 FIFO buffers — starting from a fresh
store, after n inserts each category holds the most recent `min n 50`
records, in insertion order, the oldest evicted first; but
`record_success_case` appends to its category with no eviction at all. -/
theorem learningStore_bounded_fifo (xs : List PPRec) (st : AgentMemSt)
    (agentType ts : String) (inp outp : JsonV) :
    ((xs.foldl applyPP initAgentMemory).paramCompletions =
      (xs.map crecOf).drop (xs.length - 50))
    ∧ ((xs.foldl applyPP initAgentMemory).paramNormalizations =
      (xs.map nrecOf).drop (xs.length - 50))
    ∧ ((xs.foldl applyPP initAgentMemory).paramCompletions.length = min xs.length 50)
    ∧ (agentType = ("DiscoveryAgent") →
        (recordSuccessCase st agentType ts inp outp).successfulDiscoveries =
          st.successfulDiscoveries ++
            [[(("agent_type"), JsonV.str agentType), (("timestamp"), JsonV.str ts),
              (("input"), inp), (("output"), outp)]]) := by
  have hc : (xs.foldl applyPP initAgentMemory).paramCompletions =
      (xs.map crecOf).drop (xs.length - 50) := by
    rw [foldPP_completions]
    show xs.foldl (fun l x => boundedAppend l (crecOf x)) [] = _
    rw [← List.foldl_map crecOf boundedAppend xs []]
    rw [boundedAppend_foldl_drop (xs.map crecOf) [] (by simp)]
    simp
  have hn : (xs.foldl applyPP initAgentMemory).paramNormalizations =
      (xs.map nrecOf).drop (xs.length - 50) := by
    rw [foldPP_normalizations]
    show xs.foldl (fun l x => boundedAppend l (nrecOf x)) [] = _
    rw [← List.foldl_map nrecOf boundedAppend xs []]
    rw [boundedAppend_foldl_drop (xs.map nrecOf) [] (by simp)]
    simp
  refine ⟨hc, hn, ?_, ?_⟩
  · rw [hc]
    simp only [List.length_drop, List.length_map]
    omega
  · intro hA
    subst hA
    rfl

/-- One unbounded insert for the C6 counterexample (payloads distinguished by
the length of an array input). -/
def cexC6Insert (st : AgentMemSt) (i : Nat) : AgentMemSt :=
  recordSuccessCase st ("DiscoveryAgent") ("t") (JsonV.arr (List.replicate i JsonV.null))
    JsonV.null

/-- Counterexample to claim C6 as stated: 51 inserts through
`record_success_case` leave 51 records in the category (not 50) and the
earliest record is still present at the front. -/
theorem learningStore_counterexample :
    (((List.range 51).foldl cexC6Insert initAgentMemory).successfulDiscoveries.length = 51)
    ∧ (((List.range 51).foldl cexC6Insert initAgentMemory).successfulDiscoveries.head?
        = some [(("agent_type"), JsonV.str ("DiscoveryAgent")),
                (("timestamp"), JsonV.str ("t")),
                (("input"), JsonV.arr []), (("output"), JsonV.null)]) := ⟨rfl, rfl⟩

/-- Witness for the amended C6: its last conjunct has the hypothesis
`agentType = "DiscoveryAgent"`; discharge it at a concrete record. -/
theorem learningStore_bounded_fifo_witness :
    (recordSuccessCase initAgentMemory ("DiscoveryAgent") ("t0") JsonV.null
        JsonV.null).successfulDiscoveries =
      [[(("agent_type"), JsonV.str ("DiscoveryAgent")), (("timestamp"), JsonV.str ("t0")),
        (("input"), JsonV.null), (("output"), JsonV.null)]] := by
  have := (learningStore_bounded_fifo [] initAgentMemory ("DiscoveryAgent") ("t0")
    JsonV.null JsonV.null).2.2.2 rfl
  simpa using this

/-! ## Validation-failure retry policy (C4) -/

theorem paramAsyncLoop_all_invalid (mr : Int) (produce : Nat → Except String String)
    (schema : PyDict)
    (h : ∀ (i : Nat), (i : Int) < mr → ∃ ri vri,
      attemptOutcome produce ("ParamProcessorAgent") i = .ok ri
      ∧ validateParamMap ri schema = .ok vri ∧ vri.valid = false) :
    ∀ (k attempt fuel : Nat), fuel + attempt = mr.toNat →
      attempt + k + 1 = mr.toNat →
      (paramProcessAsyncLoop mr produce schema attempt fuel).produceCalls = k + 1
      ∧ ∃ m, (paramProcessAsyncLoop mr produce schema attempt fuel).result = .raised m := by
  intro k
  induction k with
  | zero =>
    intro attempt fuel hf hlast
    obtain ⟨f, rfl⟩ : ∃ f, fuel = f + 1 := ⟨fuel - 1, by omega⟩
    obtain ⟨ri, vri, hok, hval, hinv⟩ := h attempt (by omega)
    have heq : ((attempt : Int) == mr - 1) = true := by
      simp only [beq_iff_eq]
      omega
    simp only [paramProcessAsyncLoop, hok, hval, hinv, Bool.false_eq_true, if_false, heq,
      if_true]
    exact ⟨trivial, _, rfl⟩
  | succ k ih =>
    intro attempt fuel hf hlast
    obtain ⟨f, rfl⟩ : ∃ f, fuel = f + 1 := ⟨fuel - 1, by omega⟩
    obtain ⟨ri, vri, hok, hval, hinv⟩ := h attempt (by omega)
    have hne : ((attempt : Int) == mr - 1) = false := by
      simp only [beq_eq_false_iff_ne, ne_eq]
      intro hcontra
      omega
    simp only [paramProcessAsyncLoop, hok, hval, hinv, Bool.false_eq_true, if_false, hne]
    have := ih (attempt + 1) f (by omega) (by omega)
    exact ⟨by rw [this.1], this.2⟩

theorem discoveryAsyncLoop_all_invalid (mr : Int)
    (produce : Nat → Except String String)
    (h : ∀ (i : Nat), (i : Int) < mr → ∃ ri,
      attemptOutcome produce ("DiscoveryAgent") i = .ok ri
      ∧ validateComponentCards ri = false) :
    ∀ (k attempt fuel : Nat), fuel + attempt = mr.toNat →
      attempt + k + 1 = mr.toNat →
      (discoveryProcessAsyncLoop mr produce attempt fuel).produceCalls = k + 1
      ∧ ∃ m, (discoveryProcessAsyncLoop mr produce attempt fuel).result = .raised m := by
  intro k
  induction k with
  | zero =>
    intro attempt fuel hf hlast
    obtain ⟨f, rfl⟩ : ∃ f, fuel = f + 1 := ⟨fuel - 1, by omega⟩
    obtain ⟨ri, hok, hinv⟩ := h attempt (by omega)
    have heq : ((attempt : Int) == mr - 1) = true := by
      simp only [beq_iff_eq]
      omega
    simp only [discoveryProcessAsyncLoop, hok, hinv, Bool.false_eq_true, if_false, heq,
      if_true]
    exact ⟨trivial, _, rfl⟩
  | succ k ih =>
    intro attempt fuel hf hlast
    obtain ⟨f, rfl⟩ : ∃ f, fuel = f + 1 := ⟨fuel - 1, by omega⟩
    obtain ⟨ri, hok, hinv⟩ := h attempt (by omega)
    have hne : ((attempt : Int) == mr - 1) = false := by
      simp only [beq_eq_false_iff_ne, ne_eq]
      intro hcontra
      omega
    simp only [discoveryProcessAsyncLoop, hok, hinv, Bool.false_eq_true, if_false, hne]
    have := ih (attempt + 1) f (by omega) (by omega)
    exact ⟨by rw [this.1], this.2⟩

/-- Claim C4 (amended): in the synchronous entry points
(`ParamProcessorAgent.process`, `DiscoveryAgent.process`) a
semantic-validation failure after a syntactically valid record is never
retried — the stage performs exactly the external invocations of its single
`_call_with_retry` and surfaces the validation failure as a distinct wrapped
error; but in both asynchronous entry points
(`ParamProcessorAgent.process_async`, `DiscoveryAgent.process_async`) the
validation check sits inside the retry loop, so a validation failure does
trigger further external invocations, up to `max_retries` in total. -/
theorem validation_retry_policy (mr : Int) (produce : Nat → Except String String)
    (components : List PyDict) (schema : PyDict) (r : JsonV) (vr : ValidRes) :
    (requiredSchemaOf components = .ok schema →
      (paramProcessSync mr produce components).produceCalls =
        (callWithRetry mr produce ("ParamProcessorAgent")).produceCalls)
    ∧ (requiredSchemaOf components = .ok schema →
       (callWithRetry mr produce ("ParamProcessorAgent")).result = .returned (some r) →
       validateParamMap r schema = .ok vr → vr.valid = false →
       (paramProcessSync mr produce components).result =
         .error (("ParamProcessorAgent处理失败: ") ++ ("参数处理验证失败: 缺失参数 ")
           ++ pyListRepr vr.missing))
    ∧ ((discoveryProcessSync mr produce).produceCalls =
        (callWithRetry mr produce ("DiscoveryAgent")).produceCalls)
    ∧ (1 ≤ mr →
       (∀ (i : Nat), (i : Int) < mr → ∃ ri vri,
         attemptOutcome produce ("ParamProcessorAgent") i = .ok ri
         ∧ validateParamMap ri schema = .ok vri ∧ vri.valid = false) →
       (paramProcessAsyncLoop mr produce schema 0 mr.toNat).produceCalls = mr.toNat
       ∧ ∃ m, (paramProcessAsyncLoop mr produce schema 0 mr.toNat).result = .raised m)
    ∧ (1 ≤ mr →
       (∀ (i : Nat), (i : Int) < mr → ∃ ri,
         attemptOutcome produce ("DiscoveryAgent") i = .ok ri
         ∧ validateComponentCards ri = false) →
       (discoveryProcessAsync mr produce).produceCalls = mr.toNat
       ∧ ∃ m, (discoveryProcessAsync mr produce).result = .raised m) := by
  refine ⟨?_, ?_, ?_, ?_, ?_⟩
  · intro hs
    unfold paramProcessSync
    rw [hs]
    cases hres : (callWithRetry mr produce ("ParamProcessorAgent")).result with
    | raised m => simp [hres]
    | returned vopt =>
      simp only [hres]
      cases hval : validateParamMap (vopt.getD JsonV.null) schema with
      | error e => simp
      | ok vr2 =>
        by_cases hv : vr2.valid = true
        · simp [hv]
        · simp only [Bool.not_eq_true] at hv
          simp [hv]
  · intro hs hres hval hinv
    unfold paramProcessSync
    rw [hs]
    simp only [hres, Option.getD_some, hval, hinv, Bool.false_eq_true, if_false]
  · unfold discoveryProcessSync
    cases hres : (callWithRetry mr produce ("DiscoveryAgent")).result with
    | raised m => simp [hres]
    | returned vopt =>
      simp only [hres]
      by_cases hv : validateComponentCards (vopt.getD JsonV.null) = true
      · simp [hv]
      · simp only [Bool.not_eq_true] at hv
        simp [hv]
  · intro hmr hall
    have h := paramAsyncLoop_all_invalid mr produce schema hall (mr.toNat - 1) 0 mr.toNat
      (by omega) (by omega)
    refine ⟨?_, h.2⟩
    rw [h.1]
    omega
  · intro hmr hall
    have h := discoveryAsyncLoop_all_invalid mr produce hall (mr.toNat - 1) 0 mr.toNat
      (by omega) (by omega)
    unfold discoveryProcessAsync
    refine ⟨?_, h.2⟩
    rw [h.1]
    omega

/-- External-call oracle for C4: every attempt returns a record that parses
but fails semantic validation (`aliases` and other required fields missing). -/
def produceC4 : Nat → Except String String :=
  fun _ => .ok ("\x7b\x22normalized_params\x22: \x7b\x7d\x7d")

/-- External-call oracle for the discovery half of the C4 witness: every
attempt returns a parseable one-element component list whose card lacks the
required fields, so `_validate_component_cards` rejects it. -/
def produceC4Disc : Nat → Except String String :=
  fun _ => .ok ("[\x7b\x7d]")

/-- Counterexample to claim C4 as stated: on the asynchronous parameter
stage, the first attempt already yields a syntactically valid structured
record, yet the stage call invokes the external model a second time, because
the validation failure is caught inside the retry loop. -/
theorem validation_retry_counterexample :
    (attemptOutcome produceC4 ("ParamProcessorAgent") 0 =
      .ok (JsonV.obj [(("normalized_params"), JsonV.obj [])]))
    ∧ ((paramProcessAsync 2 produceC4 []).produceCalls = 2) := ⟨rfl, rfl⟩

/-- Witness for the amended C4 at `max_retries = 2` with constant
parse-valid but validation-failing oracles, covering the synchronous
parameter stage and both asynchronous stages. -/
theorem validation_retry_policy_witness :
    ((paramProcessSync 2 produceC4 []).produceCalls =
      (callWithRetry 2 produceC4 ("ParamProcessorAgent")).produceCalls)
    ∧ ((paramProcessAsyncLoop 2 produceC4 [] 0 (2 : Int).toNat).produceCalls = (2 : Int).toNat
       ∧ ∃ m, (paramProcessAsyncLoop 2 produceC4 [] 0 (2 : Int).toNat).result = .raised m)
    ∧ ((discoveryProcessAsync 2 produceC4Disc).produceCalls = (2 : Int).toNat
       ∧ ∃ m, (discoveryProcessAsync 2 produceC4Disc).result = .raised m) := by
  refine ⟨?_, ?_, ?_⟩
  · exact (validation_retry_policy 2 produceC4 [] [] JsonV.null ⟨false, []⟩).1 rfl
  · exact (validation_retry_policy 2 produceC4 [] [] JsonV.null ⟨false, []⟩).2.2.2.1
      (by decide)
      (fun i _ => ⟨JsonV.obj [(("normalized_params"), JsonV.obj [])],
        ⟨false, [("Missing field: aliases")]⟩, rfl, rfl, rfl⟩)
  · exact (validation_retry_policy 2 produceC4Disc [] [] JsonV.null ⟨false, []⟩).2.2.2.2
      (by decide)
      (fun i _ => ⟨JsonV.arr [JsonV.obj []], rfl, rfl⟩)

/-! ## StructuredResponseParser recovery and failure (C2, C7) -/

/-- Sum of brace deltas over a run of lines (the running balance the scan
tracks). -/
def braceSum (ls : List String) : Int := (ls.map braceDelta).sum

theorem scanStarted_exact : ∀ (obj : List String) (count : Int) (acc trail : List String),
    obj ≠ [] →
    (∀ k, k + 1 < obj.length → count + braceSum (obj.take (k + 1)) ≠ 0) →
    count + braceSum obj = 0 →
    scanStarted count acc (obj ++ trail) = acc ++ obj := by
  intro obj
  induction obj with
  | nil => intro _ _ _ h; exact absurd rfl h
  | cons l rest ih =>
    intro count acc trail _ hmid hend
    cases rest with
    | nil =>
      have hz : count + braceDelta l = 0 := by
        simpa [braceSum] using hend
      simp only [List.cons_append, List.nil_append, scanStarted]
      rw [if_pos (by simpa using hz)]
    | cons l2 rest2 =>
      have hnz : count + braceDelta l ≠ 0 := by
        have := hmid 0 (by simp)
        simpa [braceSum] using this
      have hrec := ih (count + braceDelta l) (acc ++ [l]) trail (by simp)
        (fun k hk => by
          have := hmid (k + 1) (by simpa using Nat.succ_lt_succ hk)
          simp only [List.take_succ_cons, braceSum, List.map_cons, List.sum_cons] at this ⊢
          omega)
        (by
          simp only [braceSum, List.map_cons, List.sum_cons] at hend ⊢
          omega)
      calc scanStarted count acc ((l :: l2 :: rest2) ++ trail)
          = scanStarted (count + braceDelta l) (acc ++ [l]) ((l2 :: rest2) ++ trail) := by
            show (if ((count + braceDelta l) == 0) = true then acc ++ [l]
              else scanStarted (count + braceDelta l) (acc ++ [l]) ((l2 :: rest2) ++ trail))
              = _
            rw [if_neg (by simpa using hnz)]
        _ = (acc ++ [l]) ++ (l2 :: rest2) := hrec
        _ = acc ++ l :: l2 :: rest2 := by simp

theorem extractJsonLines_skip : ∀ (prose rest : List String),
    (∀ l ∈ prose, strStartsWith (strTrim l) lbraceS = false) →
    extractJsonLines (prose ++ rest) = extractJsonLines rest := by
  intro prose
  induction prose with
  | nil => intro rest _; rfl
  | cons p ps ih =>
    intro rest h
    simp only [List.cons_append, extractJsonLines]
    rw [h p (List.mem_cons_self p ps), if_neg (by simp)]
    exact ih rest (fun l hl => h l (List.mem_cons_of_mem p hl))

/-- Claim C2 (amended): for raw text whose line decomposition is prose lines
(none of which starts, after trimming, with an opening brace), followed by
the lines of an embedded object whose first trimmed line starts with an
opening brace, followed by arbitrary trailing lines — provided the text
carries no markdown fence, is not itself a JSON document, its trimmed form is
non-empty, the running brace balance over the object lines first returns to
zero exactly at the object's last line, and the object lines decode to `v` —
the parse step returns exactly `v`. -/
theorem parser_embedded_object (agent t : String) (prose trail : List String)
    (l0 : String) (rest : List String) (v : JsonV)
    (hsplit : strSplitOn t ("\n") = prose ++ (l0 :: rest) ++ trail)
    (hfence : strStartsWith t ("```json") = false)
    (hne : strTrim t ≠ (""))
    (hfull : jsonLoads t = none)
    (hprose : ∀ l ∈ prose, strStartsWith (strTrim l) lbraceS = false)
    (hobj0 : strStartsWith (strTrim l0) lbraceS = true)
    (hmid : ∀ k, k + 1 < (l0 :: rest).length → braceSum ((l0 :: rest).take (k + 1)) ≠ 0)
    (hend : braceSum (l0 :: rest) = 0)
    (hdec : jsonLoads (String.intercalate ("\n") (l0 :: rest)) = some v) :
    parseJsonWithRetry t agent = .ok v := by
  have hmd : markdownStrip t = t := by
    unfold markdownStrip
    rw [hfence]
    rfl
  have hc1 : (t == ("")) = false := by
    cases hb : t == ("") with
    | false => rfl
    | true =>
      have ht : t = ("") := by simpa using hb
      rw [ht] at hne
      exact absurd rfl hne
  have hc2 : (strTrim t == ("")) = false := by
    cases hb : strTrim t == ("") with
    | false => rfl
    | true => exact absurd (by simpa using hb) hne
  unfold parseJsonWithRetry
  rw [hc1, hc2]
  simp only [Bool.or_self, Bool.false_eq_true, if_false]
  rw [hmd, hfull, hsplit]
  have hext : extractJsonLines (prose ++ (l0 :: rest) ++ trail) = l0 :: rest := by
    rw [List.append_assoc, extractJsonLines_skip prose ((l0 :: rest) ++ trail) hprose]
    simp only [List.cons_append, extractJsonLines]
    rw [if_pos (by simpa using hobj0)]
    have := scanStarted_exact (l0 :: rest) 0 [] trail (by simp)
      (fun k hk => by simpa using hmid k hk)
      (by simpa using hend)
    simpa using this
  rw [hext]
  simp only [hdec]

/-- Raw text of the C2 counterexample: a single balanced JSON object preceded
by prose on the same line. -/
def cexC2Text : String := ("Here: \x7b\x22a\x22: 1\x7d")

/-- Counterexample to claim C2 as stated: the text consists of prose followed
by one balanced decodable object, yet the parse step raises, because the
line scan only starts at a line whose trimmed content begins with the
opening brace. -/
theorem parser_embedded_counterexample :
    (cexC2Text = ("Here: ") ++ ("\x7b\x22a\x22: 1\x7d"))
    ∧ (jsonLoads ("\x7b\x22a\x22: 1\x7d") = some (JsonV.obj [(("a"), JsonV.num ("1"))]))
    ∧ (("\x7b\x22a\x22: 1\x7d").toList.count lbrace = 1
        ∧ ("\x7b\x22a\x22: 1\x7d").toList.count rbrace = 1)
    ∧ (parseJsonWithRetry cexC2Text ("DiscoveryAgent") =
        .error (("DiscoveryAgent") ++ (" response contains no valid JSON"))) :=
  ⟨rfl, rfl, ⟨rfl, rfl⟩, rfl⟩

/-- Raw text for the C2 witness: prose line, object line, trailing line. -/
def witC2Text : String := ("prose\n\x7b\x22a\x22: 1\x7d\ntrail")

/-- Witness for the amended C2: the object on its own line is recovered
unchanged from between prose and trailing text. -/
theorem parser_embedded_object_witness :
    parseJsonWithRetry witC2Text ("SemanticAgent") =
      .ok (JsonV.obj [(("a"), JsonV.num ("1"))]) :=
  parser_embedded_object ("SemanticAgent") witC2Text [("prose")] [("trail")]
    ("\x7b\x22a\x22: 1\x7d") [] (JsonV.obj [(("a"), JsonV.num ("1"))])
    rfl rfl (by decide) rfl (by decide) rfl
    (fun k hk => absurd hk (by simp))
    rfl rfl

theorem scanStarted_take : ∀ (ls : List String) (count : Int) (acc : List String),
    ∃ j, scanStarted count acc ls = acc ++ ls.take j := by
  intro ls
  induction ls with
  | nil => intro count acc; exact ⟨0, by simp [scanStarted]⟩
  | cons l rest ih =>
    intro count acc
    by_cases hz : ((count + braceDelta l) == 0) = true
    · refine ⟨1, ?_⟩
      show (if ((count + braceDelta l) == 0) = true then acc ++ [l]
        else scanStarted (count + braceDelta l) (acc ++ [l]) rest) = acc ++ (l :: rest).take 1
      rw [if_pos hz]
      rfl
    · obtain ⟨j, hj⟩ := ih (count + braceDelta l) (acc ++ [l])
      refine ⟨j + 1, ?_⟩
      show (if ((count + braceDelta l) == 0) = true then acc ++ [l]
        else scanStarted (count + braceDelta l) (acc ++ [l]) rest) = acc ++ (l :: rest).take (j + 1)
      rw [if_neg hz, hj]
      simp

theorem extractJsonLines_run : ∀ (lines : List String),
    ∃ i j, extractJsonLines lines = (lines.drop i).take j := by
  intro lines
  induction lines with
  | nil => exact ⟨0, 0, rfl⟩
  | cons l rest ih =>
    by_cases hs : strStartsWith (strTrim l) lbraceS = true
    · obtain ⟨j, hj⟩ := scanStarted_take (l :: rest) 0 []
      refine ⟨0, j, ?_⟩
      simp only [extractJsonLines, hs, if_true]
      simpa using hj
    · obtain ⟨i, j, hij⟩ := ih
      refine ⟨i + 1, j, ?_⟩
      simp only [extractJsonLines]
      rw [if_neg (by simp [hs])]
      exact hij

/-- Claim C7 (amended): the parse step raises for every empty or
whitespace-only input; and for raw text with unbalanced braces it raises
provided no run of consecutive lines of the (fence-stripped) text — in
particular the whole text — decodes as a JSON document.  (The original claim
fails because a text whose extra braces hide inside a string literal can
itself decode as a non-object JSON value and is then returned.) -/
theorem parser_malformed (agent t : String) :
    (strTrim t = ("") →
      parseJsonWithRetry t agent = .error (agent ++ (" returned empty response")))
    ∧ (t.toList.count lbrace ≠ t.toList.count rbrace →
       (∀ l : List String, l <:+: strSplitOn (markdownStrip t) ("\n") →
         jsonLoads (String.intercalate ("\n") l) = none) →
       jsonLoads (markdownStrip t) = none →
       ∃ e, parseJsonWithRetry t agent = .error e) := by
  constructor
  · intro htrim
    unfold parseJsonWithRetry
    rw [htrim]
    simp
  · intro hbal hruns hfullnone
    have hnotws : ¬(∀ c ∈ t.toList, isPyWs c = true) := by
      intro hall
      have h1 : t.toList.count lbrace = 0 := by
        rw [List.count_eq_zero]
        intro hmem
        have := hall lbrace hmem
        simp [isPyWs, lbrace] at this
      have h2 : t.toList.count rbrace = 0 := by
        rw [List.count_eq_zero]
        intro hmem
        have := hall rbrace hmem
        simp [isPyWs, rbrace] at this
      rw [h1, h2] at hbal
      exact hbal rfl
    have htrimne : (strTrim t == ("")) = false := by
      cases hb : strTrim t == ("") with
      | false => rfl
      | true =>
        exfalso
        have htr : strTrim t = ("") := by simpa using hb
        unfold strTrim at htr
        have hdata : (((t.toList.dropWhile isPyWs).reverse.dropWhile isPyWs).reverse) = [] :=
          by simpa using congrArg String.data htr
        rw [List.reverse_eq_nil_iff] at hdata
        rw [List.dropWhile_eq_nil_iff] at hdata
        apply hnotws
        intro c hc
        rcases List.mem_append.mp
            ((List.takeWhile_append_dropWhile isPyWs t.toList) ▸ hc) with h | h
        · exact List.mem_takeWhile_imp h
        · exact hdata c (List.mem_reverse.mpr h)
    have hc1 : (t == ("")) = false := by
      cases hb : t == ("") with
      | false => rfl
      | true =>
        exfalso
        have ht : t = ("") := by simpa using hb
        apply hnotws
        rw [ht]
        intro c hc
        cases hc
    unfold parseJsonWithRetry
    rw [hc1, htrimne]
    simp only [Bool.or_self, Bool.false_eq_true, if_false]
    rw [hfullnone]
    cases hext : extractJsonLines (strSplitOn (markdownStrip t) ("\n")) with
    | nil => exact ⟨_, rfl⟩
    | cons l ls =>
      obtain ⟨i, j, hij⟩ := extractJsonLines_run (strSplitOn (markdownStrip t) ("\n"))
      have hinf : (l :: ls) <:+: strSplitOn (markdownStrip t) ("\n") := by
        rw [← hext, hij]
        exact (List.take_prefix j _).isInfix.trans
          (List.drop_suffix i _).isInfix
      have hnone := hruns (l :: ls) hinf
      simp only [hnone]
      exact ⟨_, rfl⟩

/-- Raw text of the C7 counterexample: a JSON string literal containing an
opening brace — unbalanced braces, no embedded object anywhere. -/
def cexC7Text : String := ("\x22\x7b\x22")

/-- Whether any contiguous character substring of the text decodes as a JSON
object. -/
def containsDecodableObj (t : String) : Bool :=
  ((t.toList.tails.map (fun suf => suf.inits)).flatten).any (fun l =>
    match jsonLoads (String.mk l) with
    | some (JsonV.obj _) => true
    | _ => false)

/-- Counterexample to claim C7 as stated: the text has unbalanced braces and
contains no decodable structured object in any contiguous span, yet the parse
step succeeds, returning the decoded string instead of raising. -/
theorem parser_malformed_counterexample :
    (cexC7Text.toList.count lbrace = 1 ∧ cexC7Text.toList.count rbrace = 0)
    ∧ (containsDecodableObj cexC7Text = false)
    ∧ (parseJsonWithRetry cexC7Text ("PipelineAgent") = .ok (JsonV.str ("\x7b"))) :=
  ⟨⟨rfl, rfl⟩, rfl, rfl⟩

/-- Witness for the amended C7 at a whitespace-only input and at a one-line
unbalanced text with no decodable line run. -/
theorem parser_malformed_witness :
    (parseJsonWithRetry ("   ") ("CodegenAgent") =
      .error (("CodegenAgent") ++ (" returned empty response")))
    ∧ (∃ e, parseJsonWithRetry ("hello \x7b") ("CodegenAgent") = .error e) := by
  constructor
  · exact (parser_malformed ("CodegenAgent") ("   ")).1 rfl
  · refine (parser_malformed ("CodegenAgent") ("hello \x7b")).2 (by decide) ?_ rfl
    intro l hl
    have hsub := hl.sublist
    rw [show strSplitOn (markdownStrip ("hello \x7b")) ("\n") = [("hello \x7b")] from rfl]
      at hsub
    rcases List.sublist_singleton.mp hsub with h | h
    · rw [h]
      rfl
    · rw [h]
      rfl
